import Mathlib

/-! # Medical_History_code.go: a shallow embedding

The chaincode of `src/Medical_History_code.go` keeps one JSON record per member in a
key-value ledger and an index of identifiers under the key `ILNSIDs`.  This file embeds
the chaincode as pure functions over an explicit ledger value and proves (or refutes)
statements about it.

Conventions of the embedding.

* Go strings and byte slices are Lean `String`s, that is sequences of Unicode scalar
  values (Go strings that are not valid UTF-8 are outside the model).
* Go `int` is `Int`; where the library checks the 64-bit range the check is explicit.
* The ledger is the flat key space of the specification (`get(key) -> bytes?`,
  `put(key, bytes)`): every key, the empty one included, can be written and `GetState`
  answers `nil` for an absent key.  A `GetState` issued after a `PutState` of the same
  invocation sees the written value.
* The functions named as in the source take every ledger call as answered.  The error
  returns of `GetState` and `PutState` are embedded in the functions with the suffix
  `_faulty` (section "Ledger calls that return an error"), which agree with the former
  when no call returns an error (`faulty_agrees`).
* `encoding/json` is modelled for the two struct types the program decodes and encodes
  (`Member`, `ILNS_Holder`): a character-driven scanner with the states of the library's
  scanner, the field matching rule (exact name, else case-insensitive), last key wins.
* Every function returns the pair of its Go result and the ledger as left by the
  `PutState` calls it issued, whether or not it returns an error.
-/

namespace MedicalHistory

/-! ## Constants -/

def PARENTS : String := "parents"
def BIRTHDAY : String := "birthday"
def HEALTHY : String := "healthy"
def ILLNESS : String := "illness"
def DEATH : String := "death"

def STATE_CARRYING : Int := 0
def STATE_BIRTH : Int := 1
def STATE_HEALTHY : Int := 2
def STATE_ILLNESS : Int := 3
def STATE_DEATH : Int := 4

/-! ## Data model -/

/-- Go struct `Member`; a freshly declared `var m Member` is `Member.zero`. -/
structure Member where
  Name : String
  DOB : String
  Gender : String
  BloodGrp : String
  Weight : Int
  Status : Int
  Dead : Bool
  ILNSID : String
  deriving DecidableEq, Repr

/-- The zero value of `Member`. -/
def Member.zero : Member :=
  { Name := "", DOB := "", Gender := "", BloodGrp := "", Weight := 0, Status := 0,
    Dead := false, ILNSID := "" }

/-- Go struct `ILNS_Holder`.  The nil slice and the empty slice are both `[]`; the only
empty slice the program ever encodes is the nil one of `Init`. -/
structure ILNS_Holder where
  ILNSs : List String
  deriving DecidableEq, Repr

/-- The errors the chaincode returns, one constructor per message; a message that is
completed with formatted arguments is identified by its fixed leading text. -/
inductive Err where
  /-- "Error retrieving caller information" -/
  | callerInformation
  /-- "Error retrieving ILNS" -/
  | retrievingILNS
  /-- "Function of the name ... doesn't exist." -/
  | noSuchFunction (function : String)
  /-- "Invalid ILNSID provided" -/
  | invalidILNSID
  /-- "Invalid JSON object" -/
  | invalidJSON
  /-- "member already exists" -/
  | memberExists
  /-- "Permission Denied. f" or "Permission denied. f", f the name of the function -/
  | permissionDenied (function : String)
  /-- "Member not fully defined." -/
  | notFullyDefined
  /-- "Invalid value passed for new Weight" -/
  | invalidWeight
  /-- "Unable to get ILNSIDs" -/
  | unableToGetIndex
  /-- "Corrupt ILNS_Holder record" and "Corrupt ILNS_Holder" -/
  | corruptHolder
  /-- "RETRIEVE_ILNS: Corrupt member record" -/
  | corruptMember
  /-- "Failed to retrieve ILNS" -/
  | failedToRetrieve
  /-- "ILNS is not unique" -/
  | notUnique
  /-- "QUERY: Error retrieving caller details" -/
  | queryCallerDetails
  /-- "QUERY: Incorrect number of arguments passed" -/
  | queryArguments
  /-- "QUERY: Error retrieving ILNS" -/
  | queryRetrievingILNS
  /-- "Received unknown function invocation" -/
  | unknownQuery (function : String)
  /-- The text of `update_DOB` on a failed guard: `fmt.Sprint` of three booleans, the
  truth values separated by blanks, for instance "false true false". -/
  | updateDOBDenied (nameTest birthdayTest dead : Bool)
  /-- "Error storing member record" -/
  | storingMember
  /-- "Error saving changes" -/
  | savingChanges
  /-- "DEAD_MEMBER error saving changes" -/
  | deadMemberSavingChanges
  /-- "Unable to put the state" -/
  | unableToPutState
  deriving DecidableEq, Repr

/-- The authorization class of the specification: the permission-denied messages. -/
def Err.isAuthorization : Err → Bool
  | .permissionDenied _ => true
  | _ => false

/-- A Go result `([]byte, error)`, or a run-time panic (index out of range). -/
inductive Outcome where
  | ret (payload : Option String) (err : Option Err)
  | panic
  deriving DecidableEq, Repr

deriving instance DecidableEq for Except

/-- The function returned `nil, nil`. -/
def Outcome.done : Outcome := .ret none none

/-- The function returned `nil, errors.New(...)`. -/
def Outcome.fail (e : Err) : Outcome := .ret none (some e)

/-- The returned error is nil. -/
def Outcome.succeeded : Outcome → Bool
  | .ret _ none => true
  | _ => false

/-! ## Ledger -/

/-- The world state: the most recent write of a key comes first. -/
abbrev Ledger := List (String × String)

/-- `stub.GetState(key)`: the stored bytes, `none` for Go's nil. -/
def GetState (st : Ledger) (key : String) : Option String :=
  match st with
  | [] => none
  | (k, v) :: rest => if k = key then some v else GetState rest key

/-- `stub.PutState(key, value)`. -/
def PutState (st : Ledger) (key : String) (value : String) : Ledger :=
  (key, value) :: st

/-! ## encoding/json: the scanner -/

/-- A JSON value as the decoder sees it: a number keeps its literal text, a string is
already unquoted. -/
inductive JValue where
  | null
  | bool (b : Bool)
  | num (text : List Char)
  | str (s : List Char)
  | arr (xs : List JValue)
  | obj (ms : List (List Char × JValue))

/-- An open array or object (the library's `parseState` stack), with what it holds so
far: `objKey` before the colon of a member, `objValue` after it. -/
inductive Frame where
  | arr (xs : List JValue)
  | objKey (ms : List (List Char × JValue))
  | objValue (ms : List (List Char × JValue)) (key : List Char)

/-- The states of the library's scanner (`scanner.go`), carrying the text read so far. -/
inductive Mode where
  | beginValue
  | beginValueOrEmpty
  | beginString
  | beginStringOrEmpty
  | endValue (v : JValue)
  | inString (raw : List Char)
  | inStringEsc (raw : List Char)
  | inStringEscU (raw : List Char) (left : Nat)
  | neg (t : List Char)
  | zero (t : List Char)
  | one (t : List Char)
  | dot (t : List Char)
  | dot0 (t : List Char)
  | e (t : List Char)
  | eSign (t : List Char)
  | e0 (t : List Char)
  | t | tr | tru
  | f | fa | fal | fals
  | n | nu | nul

/-- Scanner configuration. -/
structure Scan where
  mode : Mode
  stack : List Frame

def isSpace (c : Char) : Bool :=
  c = ' ' || c = '\t' || c = '\r' || c = '\n'

def isDigit (c : Char) : Bool :=
  decide ('0'.toNat ≤ c.toNat) && decide (c.toNat ≤ '9'.toNat)

/-- Value of a hexadecimal digit, either case. -/
def hexVal (c : Char) : Option Nat :=
  if '0'.toNat ≤ c.toNat ∧ c.toNat ≤ '9'.toNat then some (c.toNat - '0'.toNat)
  else if 'a'.toNat ≤ c.toNat ∧ c.toNat ≤ 'f'.toNat then some (c.toNat - 'a'.toNat + 10)
  else if 'A'.toNat ≤ c.toNat ∧ c.toNat ≤ 'F'.toNat then some (c.toNat - 'A'.toNat + 10)
  else none

/-- `getu4`: the code unit of four hexadecimal digits. -/
def getu4 (a b c d : Char) : Option Nat :=
  match hexVal a, hexVal b, hexVal c, hexVal d with
  | some x, some y, some z, some w => some (((x * 16 + y) * 16 + z) * 16 + w)
  | _, _, _, _ => none

/-- `unicode.ReplacementChar`. -/
def replacementChar : Char := Char.ofNat 0xFFFD

/-- The character of a one-letter escape. -/
def escapeOf (c : Char) : Char :=
  if c = 'b' then Char.ofNat 8
  else if c = 'f' then Char.ofNat 12
  else if c = 'n' then '\n'
  else if c = 'r' then '\r'
  else if c = 't' then '\t'
  else c

/-- What `unquote` reads from the text between the quotes of a string literal: a
character (plain, or from a one-letter escape) or the code unit of a `\u` escape. -/
inductive CodeUnit where
  | ch (c : Char)
  | u (r : Nat)

/-- The text between the quotes, split into characters and `\u` escapes.  The scanner
has already checked that every backslash starts a complete escape. -/
def codeUnits : List Char → List CodeUnit
  | [] => []
  | c :: rest =>
    if c = '\\' then
      match rest with
      | [] => []
      | x :: rest1 =>
        if x = 'u' then
          match rest1 with
          | h1 :: h2 :: h3 :: h4 :: rest2 =>
            match getu4 h1 h2 h3 h4 with
            | some r => .u r :: codeUnits rest2
            | none => []
          | _ => []
        else .ch (escapeOf x) :: codeUnits rest1
    else .ch c :: codeUnits rest

/-- The characters of a sequence of code units: a surrogate that is not the first half
of a well-formed pair becomes U+FFFD (`utf16.DecodeRune`). -/
def decodeUnits : List CodeUnit → List Char
  | [] => []
  | .ch c :: rest => c :: decodeUnits rest
  | [.u r] =>
    if 0xD800 ≤ r ∧ r < 0xE000 then [replacementChar] else [Char.ofNat r]
  | .u r :: .ch c :: rest =>
    if 0xD800 ≤ r ∧ r < 0xE000 then replacementChar :: c :: decodeUnits rest
    else Char.ofNat r :: c :: decodeUnits rest
  | .u r :: .u r2 :: rest =>
    if 0xD800 ≤ r ∧ r < 0xE000 then
      if r < 0xDC00 ∧ 0xDC00 ≤ r2 ∧ r2 < 0xE000 then
        Char.ofNat ((r - 0xD800) * 1024 + (r2 - 0xDC00) + 0x10000) :: decodeUnits rest
      else replacementChar :: decodeUnits (.u r2 :: rest)
    else Char.ofNat r :: decodeUnits (.u r2 :: rest)

/-- `unquote` on the text between the quotes of a scanned string literal. -/
def unquote (raw : List Char) : List Char :=
  decodeUnits (codeUnits raw)

/-- `stateEndValue`: the character after a complete value `v`. -/
def stateEndValue (v : JValue) (stack : List Frame) (c : Char) : Option Scan :=
  match stack with
  | [] => if isSpace c then some ⟨.endValue v, []⟩ else none
  | f :: rest =>
    if isSpace c then some ⟨.endValue v, f :: rest⟩
    else match f with
      | .objKey ms =>
        if c = ':' then
          match v with
          | .str k => some ⟨.beginValue, .objValue ms k :: rest⟩
          | _ => none
        else none
      | .objValue ms k =>
        if c = ',' then some ⟨.beginString, .objKey (ms ++ [(k, v)]) :: rest⟩
        else if c = '\x7d' then some ⟨.endValue (.obj (ms ++ [(k, v)])), rest⟩
        else none
      | .arr xs =>
        if c = ',' then some ⟨.beginValue, .arr (xs ++ [v]) :: rest⟩
        else if c = ']' then some ⟨.endValue (.arr (xs ++ [v])), rest⟩
        else none

/-- `stateBeginValue`: the first character of a value. -/
def stateBeginValue (stack : List Frame) (c : Char) : Option Scan :=
  if isSpace c then some ⟨.beginValue, stack⟩
  else if c = '\x7b' then some ⟨.beginStringOrEmpty, .objKey [] :: stack⟩
  else if c = '[' then some ⟨.beginValueOrEmpty, .arr [] :: stack⟩
  else if c = '"' then some ⟨.inString [], stack⟩
  else if c = '-' then some ⟨.neg [c], stack⟩
  else if c = '0' then some ⟨.zero [c], stack⟩
  else if c = 't' then some ⟨.t, stack⟩
  else if c = 'f' then some ⟨.f, stack⟩
  else if c = 'n' then some ⟨.n, stack⟩
  else if isDigit c then some ⟨.one [c], stack⟩
  else none

/-- One step of the scanner. -/
def step (s : Scan) (c : Char) : Option Scan :=
  match s.mode with
  | .beginValue => stateBeginValue s.stack c
  | .beginValueOrEmpty =>
    if isSpace c then some s
    else if c = ']' then
      match s.stack with
      | .arr xs :: rest => some ⟨.endValue (.arr xs), rest⟩
      | _ => none
    else stateBeginValue s.stack c
  | .beginString =>
    if isSpace c then some s
    else if c = '"' then some ⟨.inString [], s.stack⟩
    else none
  | .beginStringOrEmpty =>
    if isSpace c then some s
    else if c = '\x7d' then
      match s.stack with
      | .objKey ms :: rest => some ⟨.endValue (.obj ms), rest⟩
      | _ => none
    else if c = '"' then some ⟨.inString [], s.stack⟩
    else none
  | .endValue v => stateEndValue v s.stack c
  | .inString raw =>
    if c = '"' then some ⟨.endValue (.str (unquote raw)), s.stack⟩
    else if c = '\\' then some ⟨.inStringEsc (raw ++ [c]), s.stack⟩
    else if c.toNat < 0x20 then none
    else some ⟨.inString (raw ++ [c]), s.stack⟩
  | .inStringEsc raw =>
    if c = 'b' ∨ c = 'f' ∨ c = 'n' ∨ c = 'r' ∨ c = 't' ∨ c = '\\' ∨ c = '/' ∨ c = '"' then
      some ⟨.inString (raw ++ [c]), s.stack⟩
    else if c = 'u' then some ⟨.inStringEscU (raw ++ [c]) 4, s.stack⟩
    else none
  | .inStringEscU raw left =>
    if (hexVal c).isSome then
      if left ≤ 1 then some ⟨.inString (raw ++ [c]), s.stack⟩
      else some ⟨.inStringEscU (raw ++ [c]) (left - 1), s.stack⟩
    else none
  | .neg t =>
    if c = '0' then some ⟨.zero (t ++ [c]), s.stack⟩
    else if isDigit c then some ⟨.one (t ++ [c]), s.stack⟩
    else none
  | .one t =>
    if isDigit c then some ⟨.one (t ++ [c]), s.stack⟩
    else if c = '.' then some ⟨.dot (t ++ [c]), s.stack⟩
    else if c = 'e' ∨ c = 'E' then some ⟨.e (t ++ [c]), s.stack⟩
    else stateEndValue (.num t) s.stack c
  | .zero t =>
    if c = '.' then some ⟨.dot (t ++ [c]), s.stack⟩
    else if c = 'e' ∨ c = 'E' then some ⟨.e (t ++ [c]), s.stack⟩
    else stateEndValue (.num t) s.stack c
  | .dot t =>
    if isDigit c then some ⟨.dot0 (t ++ [c]), s.stack⟩ else none
  | .dot0 t =>
    if isDigit c then some ⟨.dot0 (t ++ [c]), s.stack⟩
    else if c = 'e' ∨ c = 'E' then some ⟨.e (t ++ [c]), s.stack⟩
    else stateEndValue (.num t) s.stack c
  | .e t =>
    if c = '+' ∨ c = '-' then some ⟨.eSign (t ++ [c]), s.stack⟩
    else if isDigit c then some ⟨.e0 (t ++ [c]), s.stack⟩
    else none
  | .eSign t =>
    if isDigit c then some ⟨.e0 (t ++ [c]), s.stack⟩ else none
  | .e0 t =>
    if isDigit c then some ⟨.e0 (t ++ [c]), s.stack⟩
    else stateEndValue (.num t) s.stack c
  | .t => if c = 'r' then some ⟨.tr, s.stack⟩ else none
  | .tr => if c = 'u' then some ⟨.tru, s.stack⟩ else none
  | .tru => if c = 'e' then some ⟨.endValue (.bool true), s.stack⟩ else none
  | .f => if c = 'a' then some ⟨.fa, s.stack⟩ else none
  | .fa => if c = 'l' then some ⟨.fal, s.stack⟩ else none
  | .fal => if c = 's' then some ⟨.fals, s.stack⟩ else none
  | .fals => if c = 'e' then some ⟨.endValue (.bool false), s.stack⟩ else none
  | .n => if c = 'u' then some ⟨.nu, s.stack⟩ else none
  | .nu => if c = 'l' then some ⟨.nul, s.stack⟩ else none
  | .nul => if c = 'l' then some ⟨.endValue .null, s.stack⟩ else none

/-- The scanner run over a text. -/
def run (s : Scan) : List Char → Option Scan
  | [] => some s
  | c :: cs =>
    match step s c with
    | none => none
    | some s1 => run s1 cs

/-- End of input (`scanner.eof`): the top-level value must be complete. -/
def eof (s : Scan) : Option JValue :=
  match s.stack, s.mode with
  | [], .endValue v => some v
  | [], .zero t => some (.num t)
  | [], .one t => some (.num t)
  | [], .dot0 t => some (.num t)
  | [], .e0 t => some (.num t)
  | _, _ => none

/-- The value a text denotes, `none` when the library reports a SyntaxError. -/
def parseJSON (data : List Char) : Option JValue :=
  match run ⟨.beginValue, []⟩ data with
  | none => none
  | some s => eof s

/-! ## encoding/json: decoding into the two structs -/

/-- Case folding of a key character, as far as names written in ASCII are concerned:
the ASCII letters, U+017F (long s) and U+212A (Kelvin sign). -/
def foldRune (c : Char) : Char :=
  if 'a'.toNat ≤ c.toNat ∧ c.toNat ≤ 'z'.toNat then Char.ofNat (c.toNat - 32)
  else if c.toNat = 0x17F then 'S'
  else if c.toNat = 0x212A then 'K'
  else c

/-- The case-insensitive comparison of a field name with an object key. -/
def equalFold (name key : List Char) : Bool :=
  name.map foldRune = key.map foldRune

/-- The field an object key selects: the field of that exact name, else the first
field whose name matches case-insensitively. -/
def findField {α : Type} (key : List Char) : List (String × α) → Option α → Option α
  | [], f => f
  | (n, x) :: rest, f =>
    if n.data = key then some x
    else findField key rest (if f.isNone ∧ equalFold n.data key then some x else f)

/-- The fields of `Member`. -/
inductive Field where
  | Name | DOB | Gender | BloodGrp | Weight | Status | Dead | ILNSID
  deriving DecidableEq, Repr

/-- The JSON names of the fields of `Member` (the struct tags), in declaration order. -/
def memberFields : List (String × Field) :=
  [("name", .Name), ("DOB", .DOB), ("gender", .Gender), ("BloodGrp", .BloodGrp),
   ("Weight", .Weight), ("status", .Status), ("dead", .Dead), ("IllnessID", .ILNSID)]

/-- Value of a string of decimal digits, `none` if a character is not a digit. -/
def digitsValue : List Char → Nat → Option Nat
  | [], acc => some acc
  | c :: cs, acc => if isDigit c then digitsValue cs (acc * 10 + (c.toNat - '0'.toNat)) else none

/-- `strconv.ParseInt(s, 10, 64)`, which is also `strconv.Atoi` on a 64-bit platform:
an optional sign and at least one digit, within the 64-bit range. -/
def ParseInt (s : List Char) : Option Int :=
  match s with
  | [] => none
  | c :: cs =>
    if c = '-' then
      match cs with
      | [] => none
      | _ :: _ =>
        match digitsValue cs 0 with
        | some n => if n ≤ 2 ^ 63 then some (-(n : Int)) else none
        | none => none
    else if c = '+' then
      match cs with
      | [] => none
      | _ :: _ =>
        match digitsValue cs 0 with
        | some n => if n < 2 ^ 63 then some (n : Int) else none
        | none => none
    else
      match digitsValue (c :: cs) 0 with
      | some n => if n < 2 ^ 63 then some (n : Int) else none
      | none => none

/-- A JSON value stored into a `string` field: `null` leaves the field as it is, any
other kind of value is an UnmarshalTypeError. -/
def storeString (old : String) : JValue → Option String
  | .str s => some (String.mk s)
  | .null => some old
  | _ => none

/-- A JSON value stored into an `int` field. -/
def storeInt (old : Int) : JValue → Option Int
  | .num t => ParseInt t
  | .null => some old
  | _ => none

/-- A JSON value stored into a `bool` field. -/
def storeBool (old : Bool) : JValue → Option Bool
  | .bool b => some b
  | .null => some old
  | _ => none

/-- One member of a JSON object stored into a `Member`. -/
def setField (m : Member) (f : Field) (v : JValue) : Option Member :=
  match f with
  | .Name => (storeString m.Name v).map fun x => { m with Name := x }
  | .DOB => (storeString m.DOB v).map fun x => { m with DOB := x }
  | .Gender => (storeString m.Gender v).map fun x => { m with Gender := x }
  | .BloodGrp => (storeString m.BloodGrp v).map fun x => { m with BloodGrp := x }
  | .Weight => (storeInt m.Weight v).map fun x => { m with Weight := x }
  | .Status => (storeInt m.Status v).map fun x => { m with Status := x }
  | .Dead => (storeBool m.Dead v).map fun x => { m with Dead := x }
  | .ILNSID => (storeString m.ILNSID v).map fun x => { m with ILNSID := x }

/-- The members of a JSON object stored one after the other: a key that selects no
field is skipped, a later key overwrites an earlier one. -/
def decodeMember : List (List Char × JValue) → Member → Option Member
  | [], m => some m
  | (k, v) :: rest, m =>
    match findField k memberFields none with
    | none => decodeMember rest m
    | some f =>
      match setField m f v with
      | none => none
      | some m1 => decodeMember rest m1

/-- `json.Unmarshal(data, &m)` for a `Member`: `none` when the library returns an error
(a SyntaxError or an UnmarshalTypeError; no caller uses `m` after an error). -/
def unmarshalMember (data : String) (m : Member) : Option Member :=
  match parseJSON data.data with
  | some (.obj ms) => decodeMember ms m
  | some .null => some m
  | _ => none

/-- The elements of a JSON array stored into a `[]string`. -/
def storeStrings : List JValue → Option (List String)
  | [] => some []
  | v :: rest =>
    match storeString "" v, storeStrings rest with
    | some x, some xs => some (x :: xs)
    | _, _ => none

/-- The members of a JSON object stored into an `ILNS_Holder`, whose only field has the
JSON name `ILNSs`; `null` resets the slice. -/
def decodeHolder : List (List Char × JValue) → ILNS_Holder → Option ILNS_Holder
  | [], h => some h
  | (k, v) :: rest, h =>
    match findField k [("ILNSs", ())] none with
    | none => decodeHolder rest h
    | some _ =>
      match v with
      | .arr xs =>
        match storeStrings xs with
        | some l => decodeHolder rest ⟨l⟩
        | none => none
      | .null => decodeHolder rest ⟨[]⟩
      | _ => none

/-- `json.Unmarshal(data, &h)` for an `ILNS_Holder`. -/
def unmarshalHolder (data : String) (h : ILNS_Holder) : Option ILNS_Holder :=
  match parseJSON data.data with
  | some (.obj ms) => decodeHolder ms h
  | some .null => some h
  | _ => none

/-! ## encoding/json: encoding -/

/-- Lower-case hexadecimal digit. -/
def hexDigit (n : Nat) : Char :=
  if n < 10 then Char.ofNat (48 + n) else Char.ofNat (87 + n)

/-- How `json.Marshal` writes one character of a string (HTML escaping is on). -/
def escapeChar (c : Char) : List Char :=
  if c = '"' ∨ c = '\\' then ['\\', c]
  else if c = '\n' then ['\\', 'n']
  else if c = '\r' then ['\\', 'r']
  else if c = '\t' then ['\\', 't']
  else if c.toNat < 0x20 ∨ c = '<' ∨ c = '>' ∨ c = '&' then
    ['\\', 'u', '0', '0', hexDigit (c.toNat / 16), hexDigit (c.toNat % 16)]
  else if c.toNat = 0x2028 then ['\\', 'u', '2', '0', '2', '8']
  else if c.toNat = 0x2029 then ['\\', 'u', '2', '0', '2', '9']
  else [c]

/-- The escaped text of a string. -/
def escape : List Char → List Char
  | [] => []
  | c :: cs => escapeChar c ++ escape cs

/-- A string as a JSON string literal. -/
def quote (s : String) : List Char :=
  '"' :: (escape s.data ++ ['"'])

/-- `strconv.FormatInt(i, 10)`. -/
def FormatInt (i : Int) : List Char :=
  match i with
  | .ofNat n => Nat.toDigits 10 n
  | .negSucc n => '-' :: Nat.toDigits 10 (n + 1)

/-- `json.Marshal(m)` for a `Member`: the fields in declaration order under their
JSON names. -/
def marshalMember (m : Member) : String :=
  String.mk ("\x7b\"name\":".data ++ quote m.Name ++ ",\"DOB\":".data ++ quote m.DOB
    ++ ",\"gender\":".data ++ quote m.Gender ++ ",\"BloodGrp\":".data ++ quote m.BloodGrp
    ++ ",\"Weight\":".data ++ FormatInt m.Weight ++ ",\"status\":".data ++ FormatInt m.Status
    ++ ",\"dead\":".data ++ (if m.Dead then "true".data else "false".data)
    ++ ",\"IllnessID\":".data ++ quote m.ILNSID ++ "\x7d".data)

/-- The elements of a `[]string`, separated by commas. -/
def marshalStrings : List String → List Char
  | [] => []
  | [x] => quote x
  | x :: y :: rest => quote x ++ ',' :: marshalStrings (y :: rest)

/-- `json.Marshal(h)` for an `ILNS_Holder`; the empty list is the nil slice. -/
def marshalHolder (h : ILNS_Holder) : String :=
  match h.ILNSs with
  | [] => "\x7b\"ILNSs\":null\x7d"
  | x :: rest => String.mk ("\x7b\"ILNSs\":[".data ++ marshalStrings (x :: rest) ++ "]\x7d".data)

/-! ## The chaincode -/

/-- `Init`'s loop over the certificate arguments: `add_ecert` stores each pair (its
result is ignored); an odd number of arguments makes `args[i+1]` panic. -/
def add_ecerts (st : Ledger) : List String → Outcome × Ledger
  | [] => (.done, st)
  | [_] => (.panic, st)
  | name :: ecert :: rest => add_ecerts (PutState st name ecert) rest

/-- `Init`: writes the empty index, then the certificate pairs. -/
def Init (st : Ledger) (args : List String) : Outcome × Ledger :=
  add_ecerts (PutState st "ILNSIDs" (marshalHolder ⟨[]⟩)) args

/-- `get_caller_data`: the attribute `username` (the error of reading it is dropped,
the name is then empty) and the attribute `role`; `none` stands for an attribute that
cannot be read. -/
def get_caller_data (username role : Option String) : Option (String × String) :=
  match role with
  | none => none
  | some affiliation => some (username.getD "", affiliation)

/-- `retrieve_ILNS`: the record stored under `ILNSID`, decoded; the bytes of an absent
key are nil, which does not decode. -/
def retrieve_ILNS (st : Ledger) (ILNSID : String) : Except Err Member :=
  match unmarshalMember ((GetState st ILNSID).getD "") Member.zero with
  | none => .error .corruptMember
  | some m => .ok m

/-- `save_changes`: the record written, encoded, under its own `ILNSID` field. -/
def save_changes (st : Ledger) (m : Member) : Ledger :=
  PutState st m.ILNSID (marshalMember m)

/-- `regexp.Match("^[A-z][A-z][0-8]{7}", ...)`: the pattern is anchored at the start
only, and the class `[A-z]` is the code point range from `A` to `z`. -/
def matchILNSID (s : List Char) : Bool :=
  match s with
  | a :: b :: d1 :: d2 :: d3 :: d4 :: d5 :: d6 :: d7 :: _ =>
    [a, b].all (fun c => decide ('A'.toNat ≤ c.toNat) && decide (c.toNat ≤ 'z'.toNat))
      && [d1, d2, d3, d4, d5, d6, d7].all
        (fun c => decide ('0'.toNat ≤ c.toNat) && decide (c.toNat ≤ '8'.toNat))
  | _ => false

/-- The JSON text `create_member` concatenates from its arguments. -/
def member_json (caller ILNSID : String) : String :=
  "\x7b" ++ ("\"ILNSID\":\"" ++ ILNSID ++ "\", ") ++ ("\"Name\":\"" ++ caller ++ "\", ")
    ++ "\"DOB\":\"UNDEFINED\", " ++ "\"Gender\":\"UNDEFINED\", "
    ++ "\"BloodGrp\":\"UNDEFINED\", " ++ "\"Weight\":0, " ++ "\"ILNSID\":\"UNDEFINED\", "
    ++ "\"Status\":0, " ++ "\"Dead\":false" ++ "\x7d"

/-- `create_member`, every ledger call answered; `create_member_faulty` has the error
returns of the ledger calls ("Error saving changes", "Unable to get ILNSIDs", "Unable to
put the state"). -/
def create_member (st : Ledger) (caller caller_affiliation ILNSID : String) :
    Outcome × Ledger :=
  if matchILNSID ILNSID.data = false then (.fail .invalidILNSID, st)
  else
    match unmarshalMember (member_json caller ILNSID) Member.zero with
    | none => (.fail .invalidJSON, st)
    | some m =>
      if (GetState st m.ILNSID).isSome then (.fail .memberExists, st)
      else if caller_affiliation ≠ PARENTS then (.fail (.permissionDenied "create_member"), st)
      else
        let st1 := save_changes st m
        match unmarshalHolder ((GetState st1 "ILNSIDs").getD "") ⟨[]⟩ with
        | none => (.fail .corruptHolder, st1)
        | some ILNSIDs =>
          (.done, PutState st1 "ILNSIDs" (marshalHolder ⟨ILNSIDs.ILNSs ++ [ILNSID]⟩))

/-- `parents_to_birthday`. -/
def parents_to_birthday (st : Ledger) (m : Member)
    (caller caller_affiliation recipient_name recipient_affiliation : String) :
    Outcome × Ledger :=
  if m.Status = STATE_CARRYING ∧ m.Name = caller ∧ caller_affiliation = PARENTS ∧
      recipient_affiliation = BIRTHDAY ∧ m.Dead = false then
    (.done, save_changes st { m with Name := recipient_name, Status := STATE_CARRYING })
  else (.fail (.permissionDenied "parents_to_birthday"), st)

/-- `birthday_to_healthy`. -/
def birthday_to_healthy (st : Ledger) (m : Member)
    (caller caller_affiliation recipient_name recipient_affiliation : String) :
    Outcome × Ledger :=
  if m.DOB = "UNDEFINED" ∨ m.Gender = "UNDEFINED" ∨ m.BloodGrp = "UNDEFINED" ∨ m.Weight = 0 then
    (.fail .notFullyDefined, st)
  else if m.Status = STATE_BIRTH ∧ m.Name = caller ∧ caller_affiliation = BIRTHDAY ∧
      recipient_affiliation = HEALTHY ∧ m.Dead = false then
    (.done, save_changes st { m with Name := recipient_name, Status := STATE_HEALTHY })
  else (.fail (.permissionDenied "birthday_to_healthy"), st)

/-- `healthy_to_illness`. -/
def healthy_to_illness (st : Ledger) (m : Member)
    (caller caller_affiliation recipient_name recipient_affiliation : String) :
    Outcome × Ledger :=
  if m.Status = STATE_HEALTHY ∧ m.Name = caller ∧ caller_affiliation = HEALTHY ∧
      recipient_affiliation = ILLNESS ∧ m.Dead = false then
    (.done, save_changes st { m with Name := recipient_name })
  else (.fail (.permissionDenied "healthy_to_illness"), st)

/-- `illness_to_illness`. -/
def illness_to_illness (st : Ledger) (m : Member)
    (caller caller_affiliation recipient_name recipient_affiliation : String) :
    Outcome × Ledger :=
  if m.Status = STATE_ILLNESS ∧ m.Name = caller ∧ caller_affiliation = ILLNESS ∧
      recipient_affiliation = ILLNESS ∧ m.Dead = false then
    (.done, save_changes st { m with Name := recipient_name })
  else (.fail (.permissionDenied "illness_to_illness"), st)

/-- `illness_to_healthy`. -/
def illness_to_healthy (st : Ledger) (m : Member)
    (caller caller_affiliation recipient_name recipient_affiliation : String) :
    Outcome × Ledger :=
  if m.Status = STATE_ILLNESS ∧ m.Name = caller ∧ caller_affiliation = HEALTHY ∧
      recipient_affiliation = ILLNESS ∧ m.Dead = false then
    (.done, save_changes st { m with Name := recipient_name })
  else (.fail (.permissionDenied "illness_to_healthy"), st)

/-- `healthy_to_death`. -/
def healthy_to_death (st : Ledger) (m : Member)
    (caller caller_affiliation recipient_name recipient_affiliation : String) :
    Outcome × Ledger :=
  if m.Status = STATE_HEALTHY ∧ m.Name = caller ∧ caller_affiliation = HEALTHY ∧
      recipient_affiliation = DEATH ∧ m.Dead = false then
    (.done, save_changes st { m with Name := recipient_name, Status := STATE_DEATH })
  else (.fail (.permissionDenied "healthy_to_death"), st)

/-- `illness_to_death`. -/
def illness_to_death (st : Ledger) (m : Member)
    (caller caller_affiliation recipient_name recipient_affiliation : String) :
    Outcome × Ledger :=
  if m.Status = STATE_ILLNESS ∧ m.Name = caller ∧ caller_affiliation = ILLNESS ∧
      recipient_affiliation = DEATH ∧ m.Dead = false then
    (.done, save_changes st { m with Name := recipient_name, Status := STATE_DEATH })
  else (.fail (.permissionDenied "illness_to_death"), st)

/-- `update_DOB`.  On a failed guard the error text is built by
`fmt.Sprint("Permission denied. update_DOB %t %t %t" + m.Name == caller, ...)`: the
concatenation binds tighter than the comparison, so the first operand is the truth value
of "the message followed by the holder name equals the caller". -/
def update_DOB (st : Ledger) (m : Member) (caller caller_affiliation new_value : String) :
    Outcome × Ledger :=
  if m.Name = caller ∧ caller_affiliation = BIRTHDAY ∧ m.Dead = false then
    (.done, save_changes st { m with DOB := new_value })
  else
    (.fail (.updateDOBDenied
      (decide ("Permission denied. update_DOB %t %t %t" ++ m.Name = caller))
      (decide (caller_affiliation = BIRTHDAY)) m.Dead), st)

/-- `update_BloodGrp`. -/
def update_BloodGrp (st : Ledger) (m : Member) (caller caller_affiliation new_value : String) :
    Outcome × Ledger :=
  if m.Name = caller ∧ caller_affiliation = BIRTHDAY ∧ m.Dead = false then
    (.done, save_changes st { m with BloodGrp := new_value })
  else (.fail (.permissionDenied "update_BloodGrp"), st)

/-- `update_gender`. -/
def update_gender (st : Ledger) (m : Member) (caller caller_affiliation new_value : String) :
    Outcome × Ledger :=
  if m.Name = caller ∧ caller_affiliation ≠ DEATH ∧ m.Dead = false then
    (.done, save_changes st { m with Gender := new_value })
  else (.fail (.permissionDenied "update_gender"), st)

/-- Go's `len` of a string: the length of its UTF-8 encoding. -/
def len (s : List Char) : Nat :=
  match s with
  | [] => 0
  | c :: cs =>
    (if c.toNat < 0x80 then 1 else if c.toNat < 0x800 then 2
      else if c.toNat < 0x10000 then 3 else 4) + len cs

/-- `update_Weight`. -/
def update_Weight (st : Ledger) (m : Member) (caller caller_affiliation new_value : String) :
    Outcome × Ledger :=
  match ParseInt new_value.data with
  | none => (.fail .invalidWeight, st)
  | some new_Weight =>
    if len new_value.data ≠ 15 then (.fail .invalidWeight, st)
    else if m.Name = caller ∧ caller_affiliation ≠ DEATH ∧ m.Dead = false then
      (.done, save_changes st { m with Weight := new_Weight })
    else (.fail (.permissionDenied "update_Weight"), st)

/-- `dead_member`. -/
def dead_member (st : Ledger) (m : Member) (caller caller_affiliation : String) :
    Outcome × Ledger :=
  if m.Status = STATE_DEATH ∧ m.Name = caller ∧ caller_affiliation = DEATH ∧
      m.Dead = false then
    (.done, save_changes st { m with Dead := true })
  else (.fail (.permissionDenied "dead_member"), st)

/-- `get_member_details`. -/
def get_member_details (m : Member) (caller caller_affiliation : String) : Outcome :=
  if m.Name = caller ∨ caller_affiliation = PARENTS then .ret (some (marshalMember m)) none
  else .fail (.permissionDenied "get_mobile_details")

/-- The loop of `get_members` over the index: `none` when a listed identifier does not
load. -/
def get_members_loop (st : Ledger) (caller caller_affiliation : String) :
    List String → String → Option String
  | [], result => some result
  | ILNS :: rest, result =>
    match retrieve_ILNS st ILNS with
    | .error _ => none
    | .ok m =>
      match get_member_details m caller caller_affiliation with
      | .ret (some temp) none => get_members_loop st caller caller_affiliation rest (result ++ temp ++ ",")
      | _ => get_members_loop st caller caller_affiliation rest result

/-- `get_members`. -/
def get_members (st : Ledger) (caller caller_affiliation : String) : Outcome :=
  match unmarshalHolder ((GetState st "ILNSIDs").getD "") ⟨[]⟩ with
  | none => .fail .corruptHolder
  | some ILNSIDs =>
    match get_members_loop st caller caller_affiliation ILNSIDs.ILNSs "[" with
    | none => .fail .failedToRetrieve
    | some result =>
      if len result.data = 1 then .ret (some "[]") none
      else .ret (some (String.mk result.data.dropLast ++ "]")) none

/-- `check_unique_ILNS`. -/
def check_unique_ILNS (st : Ledger) (ILNS : String) : Outcome :=
  match retrieve_ILNS st ILNS with
  | .ok _ => .ret (some "false") (some .notUnique)
  | .error _ => .ret (some "true") none

/-- `strings.HasPrefix` on character lists. -/
def startsWith : List Char → List Char → Bool
  | _, [] => true
  | [], _ :: _ => false
  | c :: cs, d :: ds => c = d && startsWith cs ds

/-- `strings.Contains`. -/
def Contains : List Char → List Char → Bool
  | [], sub => sub.isEmpty
  | c :: cs, sub => startsWith (c :: cs) sub || Contains cs sub

/-- The branch of `Invoke` that follows the loading of the record `m`: the dispatch on
the function name, `a0` being `args[0]`. -/
def invokeLoaded (st : Ledger) (m : Member) (caller caller_affiliation function a0 : String) :
    Outcome × Ledger :=
  if Contains function.data "update".data = false ∧ function ≠ "dead_member" then
    if function = "parents_to_birthday" then
      parents_to_birthday st m caller caller_affiliation a0 "birthday"
    else if function = "birthday_to_healthy" then
      birthday_to_healthy st m caller caller_affiliation a0 "healthy"
    else if function = "healthy_to_illness" then
      healthy_to_illness st m caller caller_affiliation a0 "illness"
    else if function = "illness_to_illness" then
      illness_to_illness st m caller caller_affiliation a0 "illness"
    else if function = "illness_to_healthy" then
      illness_to_healthy st m caller caller_affiliation a0 "healthy"
    else if function = "healthy_to_death" then
      healthy_to_death st m caller caller_affiliation a0 "death"
    else if function = "illness_to_death" then
      illness_to_death st m caller caller_affiliation a0 "death"
    else (.fail (.noSuchFunction function), st)
  else if function = "update_DOB" then update_DOB st m caller caller_affiliation a0
  else if function = "update_gender" then update_gender st m caller caller_affiliation a0
  else if function = "update_BloodGrp" then update_BloodGrp st m caller caller_affiliation a0
  else if function = "update_Weight" then update_Weight st m caller caller_affiliation a0
  else if function = "dead_member" then dead_member st m caller caller_affiliation
  else (.fail (.noSuchFunction function), st)

/-- `Invoke`: `username` and `role` are the two certificate attributes of the caller,
`none` for an attribute that cannot be read.  The record identifier is `args[1]`, for
`dead_member` `args[0]`; a missing argument is an index out of range. -/
def Invoke (st : Ledger) (username role : Option String) (function : String)
    (args : List String) : Outcome × Ledger :=
  match get_caller_data username role with
  | none => (.fail .callerInformation, st)
  | some (caller, caller_affiliation) =>
    if function = "create_member" then
      match args[0]? with
      | none => (.panic, st)
      | some a0 => create_member st caller caller_affiliation a0
    else if function = "ping" then (.ret (some "Hello, world!") none, st)
    else
      match args[if function = "dead_member" then 0 else 1]?, args[0]? with
      | some id, some a0 =>
        match retrieve_ILNS st id with
        | .error _ => (.fail .retrievingILNS, st)
        | .ok m => invokeLoaded st m caller caller_affiliation function a0
      | _, _ => (.panic, st)

/-- `Query`; the branch `get_ecert` returns the bytes stored under the name. -/
def Query (st : Ledger) (username role : Option String) (function : String)
    (args : List String) : Outcome :=
  match get_caller_data username role with
  | none => .fail .queryCallerDetails
  | some (caller, caller_affiliation) =>
    if function = "get_member_details" then
      match args with
      | [a0] =>
        match retrieve_ILNS st a0 with
        | .error _ => .fail .queryRetrievingILNS
        | .ok m => get_member_details m caller caller_affiliation
      | _ => .fail .queryArguments
    else if function = "check_unique_ILNS" then
      match args[0]? with
      | none => .panic
      | some a0 => check_unique_ILNS st a0
    else if function = "get_members" then get_members st caller caller_affiliation
    else if function = "get_ecert" then
      match args[0]? with
      | none => .panic
      | some a0 => .ret (GetState st a0) none
    else if function = "ping" then .ret (some "Hello, world!") none
    else .fail (.unknownQuery function)

/-- The ledger after deployment with no certificate arguments. -/
def bootstrapped : Ledger := (Init [] []).2

/-! ## The end-to-end scenario of the specification -/

/-- The ledger after Guardian alice has created `AB1234567` on the bootstrapped ledger. -/
def scenarioCreated : Ledger :=
  (Invoke bootstrapped (some "alice") (some "parents") "create_member" ["AB1234567"]).2

/-- The ledger after alice has handed the record stored under the empty key to bob. -/
def scenarioHanded : Ledger :=
  (Invoke scenarioCreated (some "alice") (some "parents") "parents_to_birthday" ["bob", ""]).2

/-- The ledger after bob (BirthRegistrar) has set the four detail fields of that record. -/
def scenarioDetailed : Ledger :=
  (Invoke
    (Invoke
      (Invoke
        (Invoke scenarioHanded (some "bob") (some "birthday") "update_DOB" ["2016-05-01", ""]).2
        (some "bob") (some "birthday") "update_gender" ["F", ""]).2
      (some "bob") (some "birthday") "update_BloodGrp" ["O+", ""]).2
    (some "bob") (some "birthday") "update_Weight" ["000000000003500", ""]).2

/-- A ledger deployed with one certificate pair whose text is a member record naming the
index key as its identifier. -/
def certificateLedger : Ledger :=
  (Init [] ["X", "\x7b\"name\":\"bob\",\"IllnessID\":\"ILNSIDs\"\x7d"]).2

/-! ## Auxiliary definitions of the statements -/

/-- Each operation on a loaded record leaves the ledger as it is or writes one value
under the record's own identifier field. -/
def writesOwnKey (st : Ledger) (m : Member) (r : Outcome × Ledger) : Prop :=
  r.2 = st ∨ ∃ v, r.2 = PutState st m.ILNSID v

/-- The record of the witnesses: bob holds it, the details are set, the stage is Birth. -/
def sampleRecord : Member :=
  { Name := "bob", DOB := "2016-05-01", Gender := "F", BloodGrp := "O+", Weight := 3500,
    Status := STATE_BIRTH, Dead := false, ILNSID := "AB1234567" }

/-- A character that neither ends nor escapes a JSON string literal and is no control
character. -/
def plainChar (c : Char) : Bool :=
  c != '"' && c != '\\' && decide (0x20 ≤ c.toNat)

/-- Text made of plain characters. -/
def plainText (s : String) : Bool :=
  s.data.all plainChar

/-- The format rule of the specification: exactly two letters followed by exactly
seven digits, each between 0 and 8. -/
def validILNSID (s : String) : Bool :=
  match s.data with
  | [a, b, d1, d2, d3, d4, d5, d6, d7] =>
    [a, b].all (fun c => (decide ('A'.toNat ≤ c.toNat) && decide (c.toNat ≤ 'Z'.toNat))
        || (decide ('a'.toNat ≤ c.toNat) && decide (c.toNat ≤ 'z'.toNat)))
      && [d1, d2, d3, d4, d5, d6, d7].all
        (fun c => decide ('0'.toNat ≤ c.toNat) && decide (c.toNat ≤ '8'.toNat))
  | _ => false

/-- The record `create_member` means to build for a caller. -/
def freshRecord (caller : String) : Member :=
  { Name := caller, DOB := "UNDEFINED", Gender := "UNDEFINED", BloodGrp := "UNDEFINED",
    Weight := 0, Status := STATE_CARRYING, Dead := false, ILNSID := "" }

/-- The JSON text of `create_member` from the closing quote of the caller name on. -/
def member_json_tail : String :=
  "\", \"DOB\":\"UNDEFINED\", \"Gender\":\"UNDEFINED\", \"BloodGrp\":\"UNDEFINED\", \"Weight\":0, \"ILNSID\":\"UNDEFINED\", \"Status\":0, \"Dead\":false\x7d"

/-- An operation on the record `m` left the dead flag alone: it wrote nothing, or it
wrote a record whose dead flag is that of `m`. -/
def keepsDead (st : Ledger) (m : Member) (r : Outcome × Ledger) : Prop :=
  r.2 = st ∨ ∃ m1, r.2 = save_changes st m1 ∧ m1.Dead = m.Dead

/-- An operation that returns an error has written nothing. -/
def failsClean (st : Ledger) (r : Outcome × Ledger) : Prop :=
  r.1.succeeded = false → r.2 = st

/-- A ledger deployed with a certificate pair stored under the index key. -/
def corruptIndexLedger : Ledger :=
  (Init [] ["ILNSIDs", "no index"]).2

/-- A record in stage Death held by dana. -/
def deathRecord : Member :=
  { Name := "dana", DOB := "2016-05-01", Gender := "F", BloodGrp := "O+", Weight := 3500,
    Status := STATE_DEATH, Dead := false, ILNSID := "AB1234567" }

/-- The records a caller may see: every record for a Guardian, else the records the
caller holds. -/
def visible (caller aff : String) (ms : List Member) : List Member :=
  ms.filter (fun m => decide (m.Name = caller ∨ aff = PARENTS))

/-- The encoded records, separated by commas. -/
def commaJoined : List Member → List Char
  | [] => []
  | [m] => (marshalMember m).data
  | m :: m1 :: rest => (marshalMember m).data ++ ',' :: commaJoined (m1 :: rest)

/-- The JSON array of the encoded records, in order; `[]` for no record. -/
def listing (ms : List Member) : String :=
  String.mk ('[' :: (commaJoined ms ++ [']']))

/-- The encoded records, each followed by a comma, as the loop of `get_members`
accumulates them. -/
def commaEnded : List Member → List Char
  | [] => []
  | m :: rest => (marshalMember m).data ++ ',' :: commaEnded rest

/-- A ledger whose index lists two identifiers, each holding a record. -/
def listedLedger : Ledger :=
  PutState
    (PutState (PutState bootstrapped "AB1234567" (marshalMember sampleRecord))
      "CD1234567" (marshalMember deathRecord))
    "ILNSIDs" (marshalHolder ⟨["AB1234567", "CD1234567"]⟩)

/-- The members that the fixed end of the JSON text of `create_member` adds to the
object. -/
def tailMembers : List (List Char × JValue) :=
  [("DOB".data, .str "UNDEFINED".data), ("Gender".data, .str "UNDEFINED".data),
   ("BloodGrp".data, .str "UNDEFINED".data), ("Weight".data, .num "0".data),
   ("ILNSID".data, .str "UNDEFINED".data), ("Status".data, .num "0".data),
   ("Dead".data, .bool false)]

/-! ## The dispatcher on a record, without the ledger -/

/-- The record that the operation `function` of the dispatcher, applied to the loaded
record `m`, hands to `save_changes`: the guard and the assignments of the operation,
without the ledger; `none` when the operation returns an error instead. -/
def mutation (m : Member) (caller aff function a0 : String) : Option Member :=
  if Contains function.data "update".data = false ∧ function ≠ "dead_member" then
    if function = "parents_to_birthday" then
      if m.Status = STATE_CARRYING ∧ m.Name = caller ∧ aff = PARENTS ∧
          "birthday" = BIRTHDAY ∧ m.Dead = false then
        some { m with Name := a0, Status := STATE_CARRYING }
      else none
    else if function = "birthday_to_healthy" then
      if m.DOB = "UNDEFINED" ∨ m.Gender = "UNDEFINED" ∨ m.BloodGrp = "UNDEFINED" ∨
          m.Weight = 0 then none
      else if m.Status = STATE_BIRTH ∧ m.Name = caller ∧ aff = BIRTHDAY ∧
          "healthy" = HEALTHY ∧ m.Dead = false then
        some { m with Name := a0, Status := STATE_HEALTHY }
      else none
    else if function = "healthy_to_illness" then
      if m.Status = STATE_HEALTHY ∧ m.Name = caller ∧ aff = HEALTHY ∧
          "illness" = ILLNESS ∧ m.Dead = false then
        some { m with Name := a0 }
      else none
    else if function = "illness_to_illness" then
      if m.Status = STATE_ILLNESS ∧ m.Name = caller ∧ aff = ILLNESS ∧
          "illness" = ILLNESS ∧ m.Dead = false then
        some { m with Name := a0 }
      else none
    else if function = "illness_to_healthy" then
      if m.Status = STATE_ILLNESS ∧ m.Name = caller ∧ aff = HEALTHY ∧
          "healthy" = ILLNESS ∧ m.Dead = false then
        some { m with Name := a0 }
      else none
    else if function = "healthy_to_death" then
      if m.Status = STATE_HEALTHY ∧ m.Name = caller ∧ aff = HEALTHY ∧
          "death" = DEATH ∧ m.Dead = false then
        some { m with Name := a0, Status := STATE_DEATH }
      else none
    else if function = "illness_to_death" then
      if m.Status = STATE_ILLNESS ∧ m.Name = caller ∧ aff = ILLNESS ∧
          "death" = DEATH ∧ m.Dead = false then
        some { m with Name := a0, Status := STATE_DEATH }
      else none
    else none
  else if function = "update_DOB" then
    if m.Name = caller ∧ aff = BIRTHDAY ∧ m.Dead = false then some { m with DOB := a0 }
    else none
  else if function = "update_gender" then
    if m.Name = caller ∧ aff ≠ DEATH ∧ m.Dead = false then some { m with Gender := a0 }
    else none
  else if function = "update_BloodGrp" then
    if m.Name = caller ∧ aff = BIRTHDAY ∧ m.Dead = false then some { m with BloodGrp := a0 }
    else none
  else if function = "update_Weight" then
    match ParseInt a0.data with
    | none => none
    | some new_Weight =>
      if len a0.data ≠ 15 then none
      else if m.Name = caller ∧ aff ≠ DEATH ∧ m.Dead = false then
        some { m with Weight := new_Weight }
      else none
  else if function = "dead_member" then
    if m.Status = STATE_DEATH ∧ m.Name = caller ∧ aff = DEATH ∧ m.Dead = false then
      some { m with Dead := true }
    else none
  else none

/-- The result `r` of an operation agrees with the record `o`: it is the success that
saves `o`, or, when there is no record, a failure that has written nothing. -/
def commits (st : Ledger) (r : Outcome × Ledger) : Option Member → Prop
  | some m1 => r = (Outcome.done, save_changes st m1)
  | none => r.1.succeeded = false ∧ r.2 = st

/-- One invocation of the dispatcher on a loaded record: the caller, the affiliation,
the function name and the first argument. -/
structure Invocation where
  caller : String
  affiliation : String
  function : String
  arg : String

/-- The record after one invocation: the record the operation saves, and the record
itself when the operation returns an error (it writes nothing then). -/
def invoked (m : Member) (i : Invocation) : Member :=
  (mutation m i.caller i.affiliation i.function i.arg).getD m

/-- The record after a finite sequence of invocations, the first of the list first. -/
def afterInvocations (m : Member) (is : List Invocation) : Member :=
  is.foldl invoked m

/-! ## Ledger calls that return an error

The functions above take every ledger call as answered.  The functions of this section
are the same source functions with the error returns of `stub.GetState` and
`stub.PutState`: `fs` lists, in the order of the calls the function issues, whether the
peer answers the call with an error (`true`); a call beyond the list is answered.  A
`GetState` that returns an error returns no bytes, a `PutState` that returns an error
has written nothing. -/

/-- `stub.GetState(key)` with its error return. -/
def GetState_faulty (refused : Bool) (st : Ledger) (key : String) :
    Except Unit (Option String) :=
  if refused then .error () else .ok (GetState st key)

/-- `stub.PutState(key, value)` with its error return. -/
def PutState_faulty (refused : Bool) (st : Ledger) (key value : String) :
    Except Unit Ledger :=
  if refused then .error () else .ok (PutState st key value)

/-- `save_changes` with the error return of its `PutState`, the call number `k` of the
calling function.  `json.Marshal` of a `Member` (strings, an integer, a boolean) returns
no error, so "Error converting member record" is not returned. -/
def save_changes_faulty (fs : List Bool) (k : Nat) (st : Ledger) (m : Member) :
    Except Err Ledger :=
  match PutState_faulty (fs.getD k false) st m.ILNSID (marshalMember m) with
  | .error _ => .error .storingMember
  | .ok st1 => .ok st1

/-- The last lines of every operation on a record: `save_changes`, then the error `e`
("Error saving changes") when it returned an error, else the nil result. -/
def save_or_fail (e : Err) (fs : List Bool) (st : Ledger) (m : Member) : Outcome × Ledger :=
  match save_changes_faulty fs 0 st m with
  | .error _ => (.fail e, st)
  | .ok st1 => (.done, st1)

/-- `create_member` with the error returns of its four ledger calls: `GetState` of the
decoded identifier (its error is not tested, only the bytes), the `PutState` of
`save_changes`, `GetState` of the index and `PutState` of the index.  The pattern of
`regexp.Match` compiles, so "Invalid ILNSID" is not returned, and an error of
`json.Marshal` of the index is only printed. -/
def create_member_faulty (fs : List Bool) (st : Ledger)
    (caller caller_affiliation ILNSID : String) : Outcome × Ledger :=
  if matchILNSID ILNSID.data = false then (.fail .invalidILNSID, st)
  else
    match unmarshalMember (member_json caller ILNSID) Member.zero with
    | none => (.fail .invalidJSON, st)
    | some m =>
      let record : Option String :=
        match GetState_faulty (fs.getD 0 false) st m.ILNSID with
        | .error _ => none
        | .ok bytes => bytes
      if record.isSome then (.fail .memberExists, st)
      else if caller_affiliation ≠ PARENTS then (.fail (.permissionDenied "create_member"), st)
      else
        match save_changes_faulty fs 1 st m with
        | .error _ => (.fail .savingChanges, st)
        | .ok st1 =>
          match GetState_faulty (fs.getD 2 false) st1 "ILNSIDs" with
          | .error _ => (.fail .unableToGetIndex, st1)
          | .ok bytes =>
            match unmarshalHolder (bytes.getD "") ⟨[]⟩ with
            | none => (.fail .corruptHolder, st1)
            | some ILNSIDs =>
              match PutState_faulty (fs.getD 3 false) st1 "ILNSIDs"
                  (marshalHolder ⟨ILNSIDs.ILNSs ++ [ILNSID]⟩) with
              | .error _ => (.fail .unableToPutState, st1)
              | .ok st2 => (.done, st2)

/-- `parents_to_birthday` with the error return of `save_changes`. -/
def parents_to_birthday_faulty (fs : List Bool) (st : Ledger) (m : Member)
    (caller caller_affiliation recipient_name recipient_affiliation : String) :
    Outcome × Ledger :=
  if m.Status = STATE_CARRYING ∧ m.Name = caller ∧ caller_affiliation = PARENTS ∧
      recipient_affiliation = BIRTHDAY ∧ m.Dead = false then
    save_or_fail .savingChanges fs st { m with Name := recipient_name, Status := STATE_CARRYING }
  else (.fail (.permissionDenied "parents_to_birthday"), st)

/-- `birthday_to_healthy` with the error return of `save_changes`. -/
def birthday_to_healthy_faulty (fs : List Bool) (st : Ledger) (m : Member)
    (caller caller_affiliation recipient_name recipient_affiliation : String) :
    Outcome × Ledger :=
  if m.DOB = "UNDEFINED" ∨ m.Gender = "UNDEFINED" ∨ m.BloodGrp = "UNDEFINED" ∨ m.Weight = 0 then
    (.fail .notFullyDefined, st)
  else if m.Status = STATE_BIRTH ∧ m.Name = caller ∧ caller_affiliation = BIRTHDAY ∧
      recipient_affiliation = HEALTHY ∧ m.Dead = false then
    save_or_fail .savingChanges fs st { m with Name := recipient_name, Status := STATE_HEALTHY }
  else (.fail (.permissionDenied "birthday_to_healthy"), st)

/-- `healthy_to_illness` with the error return of `save_changes`. -/
def healthy_to_illness_faulty (fs : List Bool) (st : Ledger) (m : Member)
    (caller caller_affiliation recipient_name recipient_affiliation : String) :
    Outcome × Ledger :=
  if m.Status = STATE_HEALTHY ∧ m.Name = caller ∧ caller_affiliation = HEALTHY ∧
      recipient_affiliation = ILLNESS ∧ m.Dead = false then
    save_or_fail .savingChanges fs st { m with Name := recipient_name }
  else (.fail (.permissionDenied "healthy_to_illness"), st)

/-- `illness_to_illness` with the error return of `save_changes`. -/
def illness_to_illness_faulty (fs : List Bool) (st : Ledger) (m : Member)
    (caller caller_affiliation recipient_name recipient_affiliation : String) :
    Outcome × Ledger :=
  if m.Status = STATE_ILLNESS ∧ m.Name = caller ∧ caller_affiliation = ILLNESS ∧
      recipient_affiliation = ILLNESS ∧ m.Dead = false then
    save_or_fail .savingChanges fs st { m with Name := recipient_name }
  else (.fail (.permissionDenied "illness_to_illness"), st)

/-- `illness_to_healthy` with the error return of `save_changes`. -/
def illness_to_healthy_faulty (fs : List Bool) (st : Ledger) (m : Member)
    (caller caller_affiliation recipient_name recipient_affiliation : String) :
    Outcome × Ledger :=
  if m.Status = STATE_ILLNESS ∧ m.Name = caller ∧ caller_affiliation = HEALTHY ∧
      recipient_affiliation = ILLNESS ∧ m.Dead = false then
    save_or_fail .savingChanges fs st { m with Name := recipient_name }
  else (.fail (.permissionDenied "illness_to_healthy"), st)

/-- `healthy_to_death` with the error return of `save_changes`. -/
def healthy_to_death_faulty (fs : List Bool) (st : Ledger) (m : Member)
    (caller caller_affiliation recipient_name recipient_affiliation : String) :
    Outcome × Ledger :=
  if m.Status = STATE_HEALTHY ∧ m.Name = caller ∧ caller_affiliation = HEALTHY ∧
      recipient_affiliation = DEATH ∧ m.Dead = false then
    save_or_fail .savingChanges fs st { m with Name := recipient_name, Status := STATE_DEATH }
  else (.fail (.permissionDenied "healthy_to_death"), st)

/-- `illness_to_death` with the error return of `save_changes`. -/
def illness_to_death_faulty (fs : List Bool) (st : Ledger) (m : Member)
    (caller caller_affiliation recipient_name recipient_affiliation : String) :
    Outcome × Ledger :=
  if m.Status = STATE_ILLNESS ∧ m.Name = caller ∧ caller_affiliation = ILLNESS ∧
      recipient_affiliation = DEATH ∧ m.Dead = false then
    save_or_fail .savingChanges fs st { m with Name := recipient_name, Status := STATE_DEATH }
  else (.fail (.permissionDenied "illness_to_death"), st)

/-- `update_DOB` with the error return of `save_changes`. -/
def update_DOB_faulty (fs : List Bool) (st : Ledger) (m : Member)
    (caller caller_affiliation new_value : String) : Outcome × Ledger :=
  if m.Name = caller ∧ caller_affiliation = BIRTHDAY ∧ m.Dead = false then
    save_or_fail .savingChanges fs st { m with DOB := new_value }
  else
    (.fail (.updateDOBDenied
      (decide ("Permission denied. update_DOB %t %t %t" ++ m.Name = caller))
      (decide (caller_affiliation = BIRTHDAY)) m.Dead), st)

/-- `update_BloodGrp` with the error return of `save_changes`. -/
def update_BloodGrp_faulty (fs : List Bool) (st : Ledger) (m : Member)
    (caller caller_affiliation new_value : String) : Outcome × Ledger :=
  if m.Name = caller ∧ caller_affiliation = BIRTHDAY ∧ m.Dead = false then
    save_or_fail .savingChanges fs st { m with BloodGrp := new_value }
  else (.fail (.permissionDenied "update_BloodGrp"), st)

/-- `update_gender` with the error return of `save_changes`. -/
def update_gender_faulty (fs : List Bool) (st : Ledger) (m : Member)
    (caller caller_affiliation new_value : String) : Outcome × Ledger :=
  if m.Name = caller ∧ caller_affiliation ≠ DEATH ∧ m.Dead = false then
    save_or_fail .savingChanges fs st { m with Gender := new_value }
  else (.fail (.permissionDenied "update_gender"), st)

/-- `update_Weight` with the error return of `save_changes`. -/
def update_Weight_faulty (fs : List Bool) (st : Ledger) (m : Member)
    (caller caller_affiliation new_value : String) : Outcome × Ledger :=
  match ParseInt new_value.data with
  | none => (.fail .invalidWeight, st)
  | some new_Weight =>
    if len new_value.data ≠ 15 then (.fail .invalidWeight, st)
    else if m.Name = caller ∧ caller_affiliation ≠ DEATH ∧ m.Dead = false then
      save_or_fail .savingChanges fs st { m with Weight := new_Weight }
    else (.fail (.permissionDenied "update_Weight"), st)

/-- `dead_member` with the error return of `save_changes`. -/
def dead_member_faulty (fs : List Bool) (st : Ledger) (m : Member)
    (caller caller_affiliation : String) : Outcome × Ledger :=
  if m.Status = STATE_DEATH ∧ m.Name = caller ∧ caller_affiliation = DEATH ∧
      m.Dead = false then
    save_or_fail .deadMemberSavingChanges fs st { m with Dead := true }
  else (.fail (.permissionDenied "dead_member"), st)

/-! # Theorems -/

/-! ## Ledger lemmas -/

theorem GetState_PutState_ne (st : Ledger) (k key v : String) (h : k ≠ key) :
    GetState (PutState st k v) key = GetState st key := by
  simp [PutState, GetState, h]

theorem GetState_PutState_same (st : Ledger) (k v : String) :
    GetState (PutState st k v) k = some v := by
  simp [PutState, GetState]

theorem parents_to_birthday_writes (st : Ledger) (m : Member) (c a rn ra : String) :
    writesOwnKey st m (parents_to_birthday st m c a rn ra) := by
  unfold parents_to_birthday writesOwnKey save_changes
  split
  · exact Or.inr ⟨_, rfl⟩
  · exact Or.inl rfl

theorem birthday_to_healthy_writes (st : Ledger) (m : Member) (c a rn ra : String) :
    writesOwnKey st m (birthday_to_healthy st m c a rn ra) := by
  unfold birthday_to_healthy writesOwnKey save_changes
  split
  · exact Or.inl rfl
  · split
    · exact Or.inr ⟨_, rfl⟩
    · exact Or.inl rfl

theorem healthy_to_illness_writes (st : Ledger) (m : Member) (c a rn ra : String) :
    writesOwnKey st m (healthy_to_illness st m c a rn ra) := by
  unfold healthy_to_illness writesOwnKey save_changes
  split
  · exact Or.inr ⟨_, rfl⟩
  · exact Or.inl rfl

theorem illness_to_illness_writes (st : Ledger) (m : Member) (c a rn ra : String) :
    writesOwnKey st m (illness_to_illness st m c a rn ra) := by
  unfold illness_to_illness writesOwnKey save_changes
  split
  · exact Or.inr ⟨_, rfl⟩
  · exact Or.inl rfl

theorem illness_to_healthy_writes (st : Ledger) (m : Member) (c a rn ra : String) :
    writesOwnKey st m (illness_to_healthy st m c a rn ra) := by
  unfold illness_to_healthy writesOwnKey save_changes
  split
  · exact Or.inr ⟨_, rfl⟩
  · exact Or.inl rfl

theorem healthy_to_death_writes (st : Ledger) (m : Member) (c a rn ra : String) :
    writesOwnKey st m (healthy_to_death st m c a rn ra) := by
  unfold healthy_to_death writesOwnKey save_changes
  split
  · exact Or.inr ⟨_, rfl⟩
  · exact Or.inl rfl

theorem illness_to_death_writes (st : Ledger) (m : Member) (c a rn ra : String) :
    writesOwnKey st m (illness_to_death st m c a rn ra) := by
  unfold illness_to_death writesOwnKey save_changes
  split
  · exact Or.inr ⟨_, rfl⟩
  · exact Or.inl rfl

theorem update_DOB_writes (st : Ledger) (m : Member) (c a v : String) :
    writesOwnKey st m (update_DOB st m c a v) := by
  unfold update_DOB writesOwnKey save_changes
  split
  · exact Or.inr ⟨_, rfl⟩
  · exact Or.inl rfl

theorem update_BloodGrp_writes (st : Ledger) (m : Member) (c a v : String) :
    writesOwnKey st m (update_BloodGrp st m c a v) := by
  unfold update_BloodGrp writesOwnKey save_changes
  split
  · exact Or.inr ⟨_, rfl⟩
  · exact Or.inl rfl

theorem update_gender_writes (st : Ledger) (m : Member) (c a v : String) :
    writesOwnKey st m (update_gender st m c a v) := by
  unfold update_gender writesOwnKey save_changes
  split
  · exact Or.inr ⟨_, rfl⟩
  · exact Or.inl rfl

theorem update_Weight_writes (st : Ledger) (m : Member) (c a v : String) :
    writesOwnKey st m (update_Weight st m c a v) := by
  unfold update_Weight writesOwnKey save_changes
  split
  · exact Or.inl rfl
  · split
    · exact Or.inl rfl
    · split
      · exact Or.inr ⟨_, rfl⟩
      · exact Or.inl rfl

theorem dead_member_writes (st : Ledger) (m : Member) (c a : String) :
    writesOwnKey st m (dead_member st m c a) := by
  unfold dead_member writesOwnKey save_changes
  split
  · exact Or.inr ⟨_, rfl⟩
  · exact Or.inl rfl

theorem invokeLoaded_writes (st : Ledger) (m : Member) (c a function a0 : String) :
    writesOwnKey st m (invokeLoaded st m c a function a0) := by
  unfold invokeLoaded
  repeat' split
  all_goals first
    | exact Or.inl (Eq.refl st)
    | with_reducible exact parents_to_birthday_writes ..
    | with_reducible exact birthday_to_healthy_writes ..
    | with_reducible exact healthy_to_illness_writes ..
    | with_reducible exact illness_to_illness_writes ..
    | with_reducible exact illness_to_healthy_writes ..
    | with_reducible exact healthy_to_death_writes ..
    | with_reducible exact illness_to_death_writes ..
    | with_reducible exact update_DOB_writes ..
    | with_reducible exact update_gender_writes ..
    | with_reducible exact update_BloodGrp_writes ..
    | with_reducible exact update_Weight_writes ..
    | with_reducible exact dead_member_writes ..

/-- What `Invoke` writes when the function is not `create_member`: nothing, or one value
under the identifier field of the record it loaded. -/
theorem Invoke_writes (st : Ledger) (u r : Option String) (function : String)
    (args : List String) (hf : function ≠ "create_member") :
    (Invoke st u r function args).2 = st ∨
      ∃ id m v, retrieve_ILNS st id = .ok m ∧
        (Invoke st u r function args).2 = PutState st m.ILNSID v := by
  unfold Invoke
  cases hcd : get_caller_data u r with
  | none => exact Or.inl rfl
  | some cd =>
    obtain ⟨caller, aff⟩ := cd
    simp only [hf, if_false]
    split
    · exact Or.inl rfl
    · split
      · rename_i id a0 _ _
        cases hr : retrieve_ILNS st id with
        | error e => exact Or.inl rfl
        | ok m =>
          rcases invokeLoaded_writes st m caller aff function a0 with h | ⟨v, h⟩
          · exact Or.inl h
          · exact Or.inr ⟨id, m, v, hr, h⟩
      · exact Or.inl rfl

/-! ## encoding/json: reading back what was written -/

theorem run_append (s : Scan) (a b : List Char) :
    run s (a ++ b) = (run s a).bind (fun s1 => run s1 b) := by
  induction a generalizing s with
  | nil => rfl
  | cons c cs ih =>
    simp only [List.cons_append, run]
    cases step s c with
    | none => rfl
    | some s1 => exact ih s1

theorem hexVal_hexDigit (n : Nat) (h : n < 16) : hexVal (hexDigit n) = some n := by
  interval_cases n <;> rfl

theorem step_inString_plain (c : Char) (raw : List Char) (stk : List Frame)
    (h1 : c ≠ '"') (h2 : c ≠ '\\') (h3 : ¬ c.toNat < 0x20) :
    step ⟨.inString raw, stk⟩ c = some ⟨.inString (raw ++ [c]), stk⟩ := by
  simp only [step, if_neg h1, if_neg h2, if_neg h3]

theorem step_inString_backslash (raw : List Char) (stk : List Frame) :
    step ⟨.inString raw, stk⟩ '\\' = some ⟨.inStringEsc (raw ++ ['\\']), stk⟩ := rfl

theorem step_inStringEsc_u (raw : List Char) (stk : List Frame) :
    step ⟨.inStringEsc raw, stk⟩ 'u' = some ⟨.inStringEscU (raw ++ ['u']) 4, stk⟩ := rfl

theorem step_inStringEscU (c : Char) (raw : List Char) (n : Nat) (stk : List Frame)
    (h : (hexVal c).isSome = true) :
    step ⟨.inStringEscU raw (n + 2), stk⟩ c = some ⟨.inStringEscU (raw ++ [c]) (n + 1), stk⟩ := by
  simp only [step, h, if_true]
  rw [if_neg (by omega)]
  rfl

theorem step_inStringEscU_last (c : Char) (raw : List Char) (stk : List Frame)
    (h : (hexVal c).isSome = true) :
    step ⟨.inStringEscU raw 1, stk⟩ c = some ⟨.inString (raw ++ [c]), stk⟩ := by
  simp only [step, h, if_true]
  rfl

/-- The scanner accepts a `\u` escape inside a string. -/
theorem run_uEscape (a b c d : Char) (raw : List Char) (stk : List Frame)
    (ha : (hexVal a).isSome = true) (hb : (hexVal b).isSome = true)
    (hc : (hexVal c).isSome = true) (hd : (hexVal d).isSome = true) :
    run ⟨.inString raw, stk⟩ ['\\', 'u', a, b, c, d]
      = some ⟨.inString (raw ++ ['\\', 'u', a, b, c, d]), stk⟩ := by
  simp only [run, step_inString_backslash, step_inStringEsc_u, step_inStringEscU _ _ _ _ ha,
    step_inStringEscU _ _ _ _ hb, step_inStringEscU _ _ _ _ hc, step_inStringEscU_last _ _ _ hd,
    List.append_assoc, List.cons_append, List.nil_append]

theorem run_escapeChar (c : Char) (raw : List Char) (stk : List Frame) :
    run ⟨.inString raw, stk⟩ (escapeChar c) = some ⟨.inString (raw ++ escapeChar c), stk⟩ := by
  unfold escapeChar
  split
  · rename_i h
    rcases h with h | h <;> subst h <;> simp [run, step]
  · split
    · rename_i h; subst h; simp [run, step]
    · split
      · rename_i h; subst h; simp [run, step]
      · split
        · rename_i h; subst h; simp [run, step]
        · split
          · rename_i h1 h2 h3 h4 h
            have ha : c.toNat / 16 < 16 := by
              rcases h with h | h | h | h
              · omega
              · subst h; decide
              · subst h; decide
              · subst h; decide
            have hb : c.toNat % 16 < 16 := Nat.mod_lt _ (by decide)
            exact run_uEscape _ _ _ _ _ _ (by decide) (by decide)
              (by rw [hexVal_hexDigit _ ha]; rfl) (by rw [hexVal_hexDigit _ hb]; rfl)
          · split
            · exact run_uEscape _ _ _ _ _ _ (by decide) (by decide) (by decide) (by decide)
            · split
              · exact run_uEscape _ _ _ _ _ _ (by decide) (by decide) (by decide) (by decide)
              · rename_i h1 h2 h3 h4 h5 h6 h7
                have hq : c ≠ '"' := fun h => h1 (Or.inl h)
                have hbs : c ≠ '\\' := fun h => h1 (Or.inr h)
                have hctl : ¬ c.toNat < 0x20 := fun h => h5 (Or.inl h)
                simp only [run, step_inString_plain c raw stk hq hbs hctl]

theorem run_escape (s raw : List Char) (stk : List Frame) :
    run ⟨.inString raw, stk⟩ (escape s) = some ⟨.inString (raw ++ escape s), stk⟩ := by
  induction s generalizing raw with
  | nil => simp [escape, run]
  | cons c cs ih =>
    rw [escape, run_append, run_escapeChar]
    show run _ (escape cs) = _
    rw [ih, List.append_assoc]

theorem decodeUnits_u (r : Nat) (rest : List CodeUnit) (h : r < 0xD800) :
    decodeUnits (.u r :: rest) = Char.ofNat r :: decodeUnits rest := by
  have hn : ¬ (0xD800 ≤ r ∧ r < 0xE000) := by omega
  rcases rest with _ | ⟨x, rest⟩
  · simp only [decodeUnits, if_neg hn]
  · cases x with
    | ch c => simp only [decodeUnits, if_neg hn]
    | u r2 => simp only [decodeUnits, if_neg hn]

theorem codeUnits_uEscape (a b c d : Char) (t : List Char) (r : Nat)
    (h : getu4 a b c d = some r) :
    codeUnits ('\\' :: 'u' :: a :: b :: c :: d :: t) = .u r :: codeUnits t := by
  simp only [codeUnits, if_true, h]

theorem codeUnits_escape1 (x : Char) (t : List Char) (h : x ≠ 'u') :
    codeUnits ('\\' :: x :: t) = .ch (escapeOf x) :: codeUnits t := by
  rw [codeUnits.eq_def]
  simp [h]

theorem codeUnits_plain (c : Char) (t : List Char) (h : c ≠ '\\') :
    codeUnits (c :: t) = .ch c :: codeUnits t := by
  rw [codeUnits.eq_def]
  simp [h]

theorem getu4_00 (a b : Nat) (ha : a < 16) (hb : b < 16) :
    getu4 '0' '0' (hexDigit a) (hexDigit b) = some (a * 16 + b) := by
  have h0 : hexVal '0' = some 0 := rfl
  simp only [getu4, h0, hexVal_hexDigit a ha, hexVal_hexDigit b hb]
  simp

theorem unquote_escapeChar (c : Char) (t : List Char) :
    decodeUnits (codeUnits (escapeChar c ++ t)) = c :: decodeUnits (codeUnits t) := by
  unfold escapeChar
  split
  · rename_i h
    rcases h with h | h <;> subst h <;>
      rw [List.cons_append, List.cons_append, List.nil_append,
        codeUnits_escape1 _ _ (by decide)] <;> rfl
  · split
    · rename_i h; subst h
      rw [List.cons_append, List.cons_append, List.nil_append,
        codeUnits_escape1 _ _ (by decide)]; rfl
    · split
      · rename_i h; subst h
        rw [List.cons_append, List.cons_append, List.nil_append,
          codeUnits_escape1 _ _ (by decide)]; rfl
      · split
        · rename_i h; subst h
          rw [List.cons_append, List.cons_append, List.nil_append,
            codeUnits_escape1 _ _ (by decide)]; rfl
        · split
          · rename_i h1 h2 h3 h4 h
            have hlt : c.toNat < 64 := by
              rcases h with h | h | h | h
              · omega
              · subst h; decide
              · subst h; decide
              · subst h; decide
            have ha : c.toNat / 16 < 16 := by omega
            have hb : c.toNat % 16 < 16 := Nat.mod_lt _ (by decide)
            show decodeUnits (codeUnits ('\\' :: 'u' :: '0' :: '0' :: hexDigit (c.toNat / 16)
              :: hexDigit (c.toNat % 16) :: t)) = _
            rw [codeUnits_uEscape _ _ _ _ _ _ (getu4_00 _ _ ha hb), Nat.div_add_mod',
              decodeUnits_u _ _ (by omega), Char.ofNat_toNat]
          · split
            · rename_i h
              show decodeUnits (codeUnits ('\\' :: 'u' :: '2' :: '0' :: '2' :: '8' :: t)) = _
              rw [codeUnits_uEscape '2' '0' '2' '8' t 0x2028 rfl, decodeUnits_u _ _ (by decide)]
              congr 1
              rw [← h, Char.ofNat_toNat]
            · split
              · rename_i h
                show decodeUnits (codeUnits ('\\' :: 'u' :: '2' :: '0' :: '2' :: '9' :: t)) = _
                rw [codeUnits_uEscape '2' '0' '2' '9' t 0x2029 rfl, decodeUnits_u _ _ (by decide)]
                congr 1
                rw [← h, Char.ofNat_toNat]
              · rename_i h1 h2 h3 h4 h5 h6 h7
                have hbs : c ≠ '\\' := fun h => h1 (Or.inr h)
                rw [List.cons_append, List.nil_append, codeUnits_plain _ _ hbs]
                rfl

/-- Reading back what `json.Marshal` writes for a string gives the string. -/
theorem unquote_escape (s : List Char) : unquote (escape s) = s := by
  unfold unquote
  induction s with
  | nil => rfl
  | cons c cs ih => rw [escape, unquote_escapeChar, ih]

/-- The scanner reads a string literal written by `json.Marshal` as that string. -/
theorem run_quote (x : String) (m0 : Mode) (stk : List Frame) (rest : List Char)
    (hm : m0 = .beginValue ∨ m0 = .beginValueOrEmpty) :
    run ⟨m0, stk⟩ (quote x ++ rest) = run ⟨.endValue (.str x.data), stk⟩ rest := by
  have h1 : step ⟨m0, stk⟩ '"' = some ⟨.inString [], stk⟩ := by
    rcases hm with h | h <;> subst h <;> rfl
  have h2 : ∀ raw, step ⟨.inString raw, stk⟩ '"' = some ⟨.endValue (.str (unquote raw)), stk⟩ :=
    fun _ => rfl
  unfold quote
  rw [List.cons_append, run, h1]
  show run _ ((escape x.data ++ ['"']) ++ rest) = _
  rw [List.append_assoc, run_append, run_escape, Option.some_bind, List.singleton_append, run,
    h2, List.nil_append, unquote_escape]

theorem run_marshalStrings (l : List String) (x : String) (xs : List JValue) (m0 : Mode)
    (stk : List Frame) (rest : List Char)
    (hm : m0 = .beginValue ∨ m0 = .beginValueOrEmpty) :
    run ⟨m0, .arr xs :: stk⟩ (marshalStrings (x :: l) ++ ']' :: rest)
      = run ⟨.endValue (.arr (xs ++ (x :: l).map (fun s => JValue.str s.data))), stk⟩ rest := by
  induction l generalizing x xs m0 with
  | nil =>
    rw [marshalStrings, run_quote _ _ _ _ hm]
    rfl
  | cons y l ih =>
    rw [marshalStrings, List.append_assoc, run_quote _ _ _ _ hm, List.cons_append]
    have hs : step ⟨.endValue (.str x.data), .arr xs :: stk⟩ ','
        = some ⟨.beginValue, .arr (xs ++ [.str x.data]) :: stk⟩ := rfl
    rw [run, hs]
    show run _ (marshalStrings (y :: l) ++ ']' :: rest) = _
    rw [ih y _ _ (Or.inl rfl)]
    simp

theorem storeStrings_map (l : List String) :
    storeStrings (l.map (fun s => JValue.str s.data)) = some l := by
  induction l with
  | nil => rfl
  | cons x l ih =>
    simp only [List.map_cons, storeStrings, storeString, ih]

/-- Decoding what `json.Marshal` writes for an `ILNS_Holder` gives the holder back. -/
theorem unmarshalHolder_marshalHolder (L : List String) (h0 : ILNS_Holder) :
    unmarshalHolder (marshalHolder ⟨L⟩) h0 = some ⟨L⟩ := by
  cases L with
  | nil => rfl
  | cons x l =>
    have hp : parseJSON (marshalHolder ⟨x :: l⟩).data
        = some (.obj [("ILNSs".data, .arr ((x :: l).map (fun s => JValue.str s.data)))]) := by
      unfold parseJSON marshalHolder
      show (match run _ (("\x7b\"ILNSs\":[".data ++ marshalStrings (x :: l)) ++ "]\x7d".data) with
        | none => none | some s => eof s) = _
      rw [List.append_assoc, run_append]
      have h0 : run ⟨.beginValue, []⟩ "\x7b\"ILNSs\":[".data
          = some ⟨.beginValueOrEmpty, [.arr [], .objValue [] "ILNSs".data]⟩ := rfl
      rw [h0, Option.some_bind]
      show (match run _ (marshalStrings (x :: l) ++ ']' :: ['\x7d']) with
        | none => none | some s => eof s) = _
      rw [run_marshalStrings _ _ _ _ _ _ (Or.inr rfl)]
      rfl
    unfold unmarshalHolder
    rw [hp]
    show decodeHolder [("ILNSs".data, _)] h0 = _
    have hf : findField "ILNSs".data [("ILNSs", ())] none = some () := by decide
    simp only [decodeHolder, hf, storeStrings_map]

/-! ## The JSON text of `create_member` -/

theorem run_plain (cs raw : List Char) (stk : List Frame) (h : cs.all plainChar = true) :
    run ⟨.inString raw, stk⟩ cs = some ⟨.inString (raw ++ cs), stk⟩ := by
  induction cs generalizing raw with
  | nil => simp [run]
  | cons c cs ih =>
    simp only [List.all_cons, Bool.and_eq_true, plainChar, bne_iff_ne, ne_eq,
      decide_eq_true_eq] at h
    obtain ⟨⟨⟨h1, h2⟩, h3⟩, h4⟩ := h
    rw [run, step_inString_plain c raw stk h1 h2 (by omega)]
    show run _ cs = _
    rw [ih _ h4, List.append_assoc]
    rfl

theorem unquote_plain (cs : List Char) (h : cs.all plainChar = true) : unquote cs = cs := by
  unfold unquote
  induction cs with
  | nil => rfl
  | cons c cs ih =>
    simp only [List.all_cons, Bool.and_eq_true, plainChar, bne_iff_ne, ne_eq,
      decide_eq_true_eq] at h
    obtain ⟨⟨⟨_, h2⟩, _⟩, h4⟩ := h
    rw [codeUnits_plain _ _ h2, decodeUnits, ih h4]

theorem member_json_data (caller id : String) :
    (member_json caller id).data
      = "\x7b\"ILNSID\":\"".data ++ (id.data ++ ("\", \"Name\":\"".data
          ++ (caller.data ++ member_json_tail.data))) := by
  unfold member_json member_json_tail
  simp only [String.data_append, List.append_assoc]
  rfl

theorem parse_member_json (caller id : String) (hc : plainText caller = true)
    (hi : plainText id = true) :
    parseJSON (member_json caller id).data
      = some (.obj [("ILNSID".data, .str id.data), ("Name".data, .str caller.data),
          ("DOB".data, .str "UNDEFINED".data), ("Gender".data, .str "UNDEFINED".data),
          ("BloodGrp".data, .str "UNDEFINED".data), ("Weight".data, .num "0".data),
          ("ILNSID".data, .str "UNDEFINED".data), ("Status".data, .num "0".data),
          ("Dead".data, .bool false)]) := by
  unfold parseJSON
  have h1 : run ⟨.beginValue, []⟩ "\x7b\"ILNSID\":\"".data
      = some ⟨.inString [], [.objValue [] "ILNSID".data]⟩ := rfl
  have h2 : ∀ raw ms k, run ⟨.inString raw, [.objValue ms k]⟩ "\", \"Name\":\"".data
      = some ⟨.inString [], [.objValue (ms ++ [(k, .str (unquote raw))]) "Name".data]⟩ :=
    fun _ _ _ => rfl
  have h3 : ∀ raw ms k, run ⟨.inString raw, [.objValue ms k]⟩ member_json_tail.data
      = some ⟨.endValue (.obj (ms ++ [(k, .str (unquote raw))] ++
          [("DOB".data, .str "UNDEFINED".data)] ++ [("Gender".data, .str "UNDEFINED".data)] ++
          [("BloodGrp".data, .str "UNDEFINED".data)] ++ [("Weight".data, .num "0".data)] ++
          [("ILNSID".data, .str "UNDEFINED".data)] ++ [("Status".data, .num "0".data)] ++
          [("Dead".data, .bool false)])), []⟩ :=
    fun _ _ _ => rfl
  rw [member_json_data, run_append, h1, Option.some_bind, run_append, run_plain _ _ _ hi,
    Option.some_bind, run_append, h2, Option.some_bind, run_append, run_plain _ _ _ hc,
    Option.some_bind, h3]
  simp only [List.nil_append, List.cons_append, unquote_plain _ hi, unquote_plain _ hc]
  rfl

/-- For plain texts, the record `create_member` decodes is the fresh record of the
caller, with an empty identifier field. -/
theorem unmarshal_member_json (caller id : String) (hc : plainText caller = true)
    (hi : plainText id = true) :
    unmarshalMember (member_json caller id) Member.zero = some (freshRecord caller) := by
  unfold unmarshalMember
  rw [parse_member_json caller id hc hi]
  rfl

theorem char_ne_of_toNat_ne (c d : Char) (h : c.toNat ≠ d.toNat) : c ≠ d :=
  fun he => h (congrArg Char.toNat he)

/-- An identifier in the format of the specification is a nine-character plain text that
passes the check of `create_member`. -/
theorem validILNSID_facts (id : String) (h : validILNSID id = true) :
    matchILNSID id.data = true ∧ plainText id = true ∧ id.data.length = 9 := by
  unfold validILNSID at h
  split at h
  · rename_i a b d1 d2 d3 d4 d5 d6 d7 hd
    simp only [List.all_cons, List.all_nil, Bool.and_true, Bool.and_eq_true, Bool.or_eq_true,
      decide_eq_true_eq] at h
    obtain ⟨⟨ha, hb⟩, h1, h2, h3, h4, h5, h6, h7⟩ := h
    have e0 : '0'.toNat = 48 := rfl
    have e8 : '8'.toNat = 56 := rfl
    have eA : 'A'.toNat = 65 := rfl
    have eZ : 'Z'.toNat = 90 := rfl
    have ea : 'a'.toNat = 97 := rfl
    have ez : 'z'.toNat = 122 := rfl
    have eq : '"'.toNat = 34 := rfl
    have eb : '\\'.toNat = 92 := rfl
    rw [e0, e8] at h1 h2 h3 h4 h5 h6 h7
    rw [eA, eZ, ea, ez] at ha hb
    refine ⟨?_, ?_, ?_⟩
    · rw [hd]
      simp only [matchILNSID, List.all_cons, List.all_nil, Bool.and_true, Bool.and_eq_true,
        decide_eq_true_eq, e0, e8, eA, ez]
      omega
    · unfold plainText
      rw [hd]
      simp only [List.all_cons, List.all_nil, Bool.and_true, Bool.and_eq_true, plainChar,
        bne_iff_ne, ne_eq, decide_eq_true_eq]
      refine ⟨⟨⟨?_, ?_⟩, ?_⟩, ⟨⟨?_, ?_⟩, ?_⟩, ⟨⟨?_, ?_⟩, ?_⟩, ⟨⟨?_, ?_⟩, ?_⟩, ⟨⟨?_, ?_⟩, ?_⟩,
        ⟨⟨?_, ?_⟩, ?_⟩, ⟨⟨?_, ?_⟩, ?_⟩, ⟨⟨?_, ?_⟩, ?_⟩, ⟨⟨?_, ?_⟩, ?_⟩⟩
      all_goals first
        | omega
        | (apply char_ne_of_toNat_ne; rw [eq]; omega)
        | (apply char_ne_of_toNat_ne; rw [eb]; omega)
    · rw [hd]; rfl
  · cases h

/-- On the bootstrapped ledger, `create_member` by a Guardian with a plain name and a
plain identifier that passes the check stores the fresh record under the empty key and
appends the identifier to the index. -/
theorem create_member_bootstrapped (caller id : String) (hm : matchILNSID id.data = true)
    (hi : plainText id = true) (hc : plainText caller = true) :
    create_member bootstrapped caller PARENTS id
      = (Outcome.done,
          PutState (PutState bootstrapped "" (marshalMember (freshRecord caller)))
            "ILNSIDs" (marshalHolder ⟨[id]⟩)) := by
  unfold create_member
  rw [if_neg (by rw [hm]; decide), unmarshal_member_json caller id hc hi]
  rfl

/-! ## Creation -/

/-- C1 (code defect): for every identifier in the format of the specification and every
Guardian with a plain name, `create_member` on the bootstrapped ledger succeeds, but it
stores the record under the empty key: nothing is stored under the identifier, and the
`retrieve_ILNS` of the identifier that follows fails. -/
theorem create_member_then_retrieve (caller id : String) (hid : validILNSID id = true)
    (hc : plainText caller = true) :
    (create_member bootstrapped caller PARENTS id).1 = Outcome.done ∧
    GetState (create_member bootstrapped caller PARENTS id).2 ""
      = some (marshalMember (freshRecord caller)) ∧
    GetState (create_member bootstrapped caller PARENTS id).2 id = none ∧
    retrieve_ILNS (create_member bootstrapped caller PARENTS id).2 id
      = .error .corruptMember := by
  obtain ⟨hm, hi, hlen⟩ := validILNSID_facts id hid
  rw [create_member_bootstrapped caller id hm hi hc]
  have h1 : id ≠ "ILNSIDs" := by
    intro he
    rw [he] at hlen
    revert hlen
    decide
  have h2 : id ≠ "" := by
    intro he
    rw [he] at hlen
    revert hlen
    decide
  have hg : GetState (PutState (PutState bootstrapped "" (marshalMember (freshRecord caller)))
      "ILNSIDs" (marshalHolder ⟨[id]⟩)) id = none := by
    rw [GetState_PutState_ne _ _ _ _ (Ne.symm h1), GetState_PutState_ne _ _ _ _ (Ne.symm h2)]
    show GetState [("ILNSIDs", _)] id = none
    simp [GetState, Ne.symm h1]
  refine ⟨rfl, ?_, hg, ?_⟩
  · rw [GetState_PutState_ne _ _ _ _ (by decide), GetState_PutState_same]
  · unfold retrieve_ILNS
    rw [hg]
    rfl

/-- C1 (witness): alice and `AB1234567`. -/
theorem create_member_then_retrieve_witness :
    (create_member bootstrapped "alice" PARENTS "AB1234567").1 = Outcome.done ∧
    GetState (create_member bootstrapped "alice" PARENTS "AB1234567").2 ""
      = some (marshalMember (freshRecord "alice")) ∧
    GetState (create_member bootstrapped "alice" PARENTS "AB1234567").2 "AB1234567" = none ∧
    retrieve_ILNS (create_member bootstrapped "alice" PARENTS "AB1234567").2 "AB1234567"
      = .error .corruptMember :=
  create_member_then_retrieve "alice" "AB1234567" (by decide) (by decide)

/-- C2 (code defect): `create_member` called by the Guardian whose name is
`ann","name":"eve` succeeds and persists a record whose holder name is `eve`, not the
caller name: the caller name is pasted unescaped into the JSON text. -/
theorem create_member_holder_forged :
    create_member bootstrapped "ann\",\"name\":\"eve" PARENTS "AB1234567"
      = (Outcome.done,
          PutState
            (save_changes bootstrapped
              { Name := "eve", DOB := "UNDEFINED", Gender := "UNDEFINED",
                BloodGrp := "UNDEFINED", Weight := 0, Status := STATE_CARRYING,
                Dead := false, ILNSID := "" })
            "ILNSIDs" (marshalHolder ⟨["AB1234567"]⟩)) ∧
    "eve" ≠ "ann\",\"name\":\"eve" := by
  refine ⟨by decide, by decide⟩

/-- C3 (code defect): the format check accepts identifiers that are not two letters
followed by seven digits in 0-8: `AB12345679` (ten characters, with the digit 9) and
`[_1234567` (no letter) are both created; `A1234567` is rejected. -/
theorem create_member_accepts_malformed :
    (create_member bootstrapped "alice" PARENTS "AB12345679").1 = Outcome.done ∧
    (create_member bootstrapped "alice" PARENTS "[_1234567").1 = Outcome.done ∧
    (create_member bootstrapped "alice" PARENTS "A1234567").1 = Outcome.fail .invalidILNSID := by
  refine ⟨by decide, by decide, by decide⟩

/-- C4 (code defect): the end-to-end scenario.  Alice's `create_member` of `AB1234567`
succeeds, but the handoff to bob addressed to `AB1234567` fails to load the record.
Addressed to the empty key, under which the record was stored, the handoff succeeds and
leaves the stage at Carrying; after bob has set the four detail fields,
`birthday_to_healthy` to carol is still denied. -/
theorem scenario_breaks :
    (Invoke bootstrapped (some "alice") (some "parents") "create_member" ["AB1234567"]).1
      = Outcome.done ∧
    Invoke scenarioCreated (some "alice") (some "parents") "parents_to_birthday"
        ["bob", "AB1234567"]
      = (Outcome.fail .retrievingILNS, scenarioCreated) ∧
    (Invoke scenarioCreated (some "alice") (some "parents") "parents_to_birthday" ["bob", ""]).1
      = Outcome.done ∧
    retrieve_ILNS scenarioHanded ""
      = .ok { Name := "bob", DOB := "UNDEFINED", Gender := "UNDEFINED",
              BloodGrp := "UNDEFINED", Weight := 0, Status := STATE_CARRYING, Dead := false,
              ILNSID := "" } ∧
    retrieve_ILNS scenarioDetailed ""
      = .ok { Name := "bob", DOB := "2016-05-01", Gender := "F", BloodGrp := "O+",
              Weight := 3500, Status := STATE_CARRYING, Dead := false, ILNSID := "" } ∧
    Invoke scenarioDetailed (some "bob") (some "birthday") "birthday_to_healthy" ["carol", ""]
      = (Outcome.fail (.permissionDenied "birthday_to_healthy"), scenarioDetailed) := by
  refine ⟨by decide, by decide, by decide, by decide, by decide, by decide⟩

/-- C5 (code defect): after a Guardian named `x","IllnessID":"K` has created
`AB1234567`, a second `create_member` of `AB1234567` succeeds; and after alice has
created it, a second call by a caller named `a"b` fails with "Invalid JSON object", not
with "member already exists". -/
theorem create_member_twice :
    (create_member bootstrapped "x\",\"IllnessID\":\"K" PARENTS "AB1234567").1 = Outcome.done ∧
    (create_member (create_member bootstrapped "x\",\"IllnessID\":\"K" PARENTS "AB1234567").2
        "bob" PARENTS "AB1234567").1 = Outcome.done ∧
    (create_member bootstrapped "alice" PARENTS "AB1234567").1 = Outcome.done ∧
    create_member (create_member bootstrapped "alice" PARENTS "AB1234567").2
        "a\"b" PARENTS "AB1234567"
      = (Outcome.fail .invalidJSON, (create_member bootstrapped "alice" PARENTS "AB1234567").2) := by
  refine ⟨by decide, by decide, by decide, by decide⟩

/-- C6 (as stated, refuted): a BirthRegistrar calling `create_member` with the
identifier `A1234567` is turned away by the format check, with "Invalid ILNSID
provided", which is not an authorization error. -/
theorem create_member_not_guardian_validation_first :
    create_member bootstrapped "bob" BIRTHDAY "A1234567"
      = (Outcome.fail .invalidILNSID, bootstrapped) ∧
    Err.isAuthorization .invalidILNSID = false := by
  refine ⟨by decide, by decide⟩

/-- C6 (amended): for every identifier and every caller whose affiliation is not
Guardian, `create_member` fails and writes nothing; the error is the permission-denied
one exactly when the identifier passes the format check, the record text decodes and
nothing is stored under the record's key. -/
theorem create_member_not_guardian (st : Ledger) (caller aff id : String)
    (h : aff ≠ PARENTS) :
    (create_member st caller aff id).2 = st ∧
    ∃ e, (create_member st caller aff id).1 = Outcome.fail e ∧
      (e = .permissionDenied "create_member" ↔
        (matchILNSID id.data = true ∧
          ∃ m, unmarshalMember (member_json caller id) Member.zero = some m ∧
            GetState st m.ILNSID = none)) := by
  unfold create_member
  by_cases hm : matchILNSID id.data = false
  · rw [if_pos hm]
    exact ⟨rfl, _, rfl, by simp [hm]⟩
  · rw [if_neg hm]
    have hm1 : matchILNSID id.data = true := by simpa using hm
    cases hu : unmarshalMember (member_json caller id) Member.zero with
    | none => exact ⟨rfl, _, rfl, by simp⟩
    | some m =>
      by_cases hg : (GetState st m.ILNSID).isSome = true
      · dsimp only
        rw [if_pos hg]
        refine ⟨rfl, _, rfl, ?_⟩
        constructor
        · intro hc; cases hc
        · rintro ⟨_, m1, h1, h2⟩
          cases h1
          rw [h2] at hg
          cases hg
      · dsimp only
        rw [if_neg hg, if_pos h]
        refine ⟨rfl, _, rfl, ?_⟩
        constructor
        · intro _
          refine ⟨hm1, m, rfl, ?_⟩
          cases hx : GetState st m.ILNSID with
          | none => rfl
          | some v => rw [hx] at hg; exact absurd rfl hg
        · intro _; rfl

/-- C6 (witness): a HealthProvider on the bootstrapped ledger. -/
theorem create_member_not_guardian_witness :
    (create_member bootstrapped "carol" HEALTHY "AB1234567").2 = bootstrapped ∧
    ∃ e, (create_member bootstrapped "carol" HEALTHY "AB1234567").1 = Outcome.fail e ∧
      (e = .permissionDenied "create_member" ↔
        (matchILNSID "AB1234567".data = true ∧
          ∃ m, unmarshalMember (member_json "carol" "AB1234567") Member.zero = some m ∧
            GetState bootstrapped m.ILNSID = none)) :=
  create_member_not_guardian bootstrapped "carol" HEALTHY "AB1234567" (by decide)

/-! ## The index -/

/-- The empty text decodes into no `ILNS_Holder`. -/
theorem unmarshalHolder_empty (h : ILNS_Holder) : unmarshalHolder "" h = none := rfl

/-- A ledger whose index decodes holds some bytes under the index key. -/
theorem index_present (st : Ledger) (H : ILNS_Holder)
    (hL : unmarshalHolder ((GetState st "ILNSIDs").getD "") ⟨[]⟩ = some H) :
    ∃ b, GetState st "ILNSIDs" = some b := by
  cases hg : GetState st "ILNSIDs" with
  | none => rw [hg] at hL; simp [unmarshalHolder_empty] at hL
  | some b => exact ⟨b, rfl⟩

/-- What a successful `create_member` does: the decoded record is written under its own
identifier field, then the index read back with the new identifier appended. -/
theorem create_member_done (st st' : Ledger) (caller aff id : String)
    (h : create_member st caller aff id = (Outcome.done, st')) :
    ∃ m H, matchILNSID id.data = true ∧
      unmarshalMember (member_json caller id) Member.zero = some m ∧
      GetState st m.ILNSID = none ∧ aff = PARENTS ∧
      unmarshalHolder ((GetState (save_changes st m) "ILNSIDs").getD "") ⟨[]⟩ = some H ∧
      st' = PutState (save_changes st m) "ILNSIDs" (marshalHolder ⟨H.ILNSs ++ [id]⟩) := by
  unfold create_member at h
  by_cases hm : matchILNSID id.data = false
  · rw [if_pos hm] at h; cases h
  · rw [if_neg hm] at h
    have hm1 : matchILNSID id.data = true := by simpa using hm
    cases hu : unmarshalMember (member_json caller id) Member.zero with
    | none => rw [hu] at h; cases h
    | some m =>
      rw [hu] at h
      dsimp only at h
      by_cases hg : (GetState st m.ILNSID).isSome = true
      · rw [if_pos hg] at h; cases h
      · rw [if_neg hg] at h
        by_cases ha : aff ≠ PARENTS
        · rw [if_pos ha] at h; cases h
        · rw [if_neg ha] at h
          have ha1 : aff = PARENTS := by simpa using ha
          have hg1 : GetState st m.ILNSID = none := by
            cases hx : GetState st m.ILNSID with
            | none => rfl
            | some v => rw [hx] at hg; exact absurd rfl hg
          cases hh : unmarshalHolder ((GetState (save_changes st m) "ILNSIDs").getD "") ⟨[]⟩ with
          | none => rw [hh] at h; cases h
          | some H =>
            rw [hh] at h
            dsimp only at h
            refine ⟨m, H, hm1, rfl, hg1, ha1, hh, ?_⟩
            exact (congrArg Prod.snd h).symm

/-- C7 (as stated, refuted): on a ledger deployed with a certificate pair whose text is
a member record naming `ILNSIDs` as its identifier, the index decodes to the empty list
and `update_gender`, invoked by that record's holder, replaces the bytes under the index
key. -/
theorem update_gender_overwrites_index :
    unmarshalHolder ((GetState certificateLedger "ILNSIDs").getD "") ⟨[]⟩ = some ⟨[]⟩ ∧
    (Invoke certificateLedger (some "bob") (some "parents") "update_gender" ["F", "X"]).1
      = Outcome.done ∧
    GetState (Invoke certificateLedger (some "bob") (some "parents") "update_gender"
        ["F", "X"]).2 "ILNSIDs"
      ≠ GetState certificateLedger "ILNSIDs" := by
  refine ⟨by decide, by decide, by decide⟩

/-- C7 (amended): on a ledger whose index decodes to `L`, a successful
`create_member(id)` leaves under the index key the encoding of `L` followed by `id`,
which decodes to `L` followed by `id`; and an invocation of any other function leaves the bytes under the index key as they
are, provided no record that loads from the ledger names the index key `ILNSIDs` in its
own identifier field. -/
theorem index_append_only (st : Ledger) (L : List String)
    (hL : unmarshalHolder ((GetState st "ILNSIDs").getD "") ⟨[]⟩ = some ⟨L⟩) :
    (∀ caller aff id st', create_member st caller aff id = (Outcome.done, st') →
        GetState st' "ILNSIDs" = some (marshalHolder ⟨L ++ [id]⟩) ∧
        unmarshalHolder ((GetState st' "ILNSIDs").getD "") ⟨[]⟩ = some ⟨L ++ [id]⟩) ∧
    (∀ u r function args, function ≠ "create_member" →
        (∀ id m, retrieve_ILNS st id = .ok m → m.ILNSID ≠ "ILNSIDs") →
        GetState (Invoke st u r function args).2 "ILNSIDs" = GetState st "ILNSIDs") := by
  constructor
  · intro caller aff id st' h
    obtain ⟨m, H, _, _, hg, _, hH, rfl⟩ := create_member_done st st' caller aff id h
    obtain ⟨b, hb⟩ := index_present st ⟨L⟩ hL
    have hne : m.ILNSID ≠ "ILNSIDs" := by
      intro he
      rw [he, hb] at hg
      cases hg
    unfold save_changes at hH
    rw [GetState_PutState_ne _ _ _ _ hne, hL] at hH
    cases hH
    rw [GetState_PutState_same]
    exact ⟨rfl, unmarshalHolder_marshalHolder _ _⟩
  · intro u r function args hf hrec
    rcases Invoke_writes st u r function args hf with h | ⟨id, m, v, hr, h⟩
    · rw [h]
    · rw [h]
      exact GetState_PutState_ne _ _ _ _ (hrec id m hr)

/-- Only the index key of the bootstrapped ledger loads, and as the zero record. -/
theorem bootstrapped_records (id : String) (m : Member)
    (h : retrieve_ILNS bootstrapped id = .ok m) : m.ILNSID ≠ "ILNSIDs" := by
  unfold retrieve_ILNS at h
  by_cases hid : "ILNSIDs" = id
  · subst hid
    have : retrieve_ILNS bootstrapped "ILNSIDs" = .ok Member.zero := by decide
    unfold retrieve_ILNS at this
    rw [this] at h
    cases h
    decide
  · have hg : GetState bootstrapped id = none := by
      show GetState [("ILNSIDs", _)] id = none
      simp [GetState, hid]
    rw [hg] at h
    have : unmarshalMember ((none : Option String).getD "") Member.zero = none := by decide
    rw [this] at h
    cases h

/-- C7 (witness): on the bootstrapped ledger, whose index decodes to the empty list,
alice's `create_member` leaves the encoding of the one-element index, and an
`update_gender` invocation leaves the index bytes as they are. -/
theorem index_append_only_witness :
    (GetState (create_member bootstrapped "alice" PARENTS "AB1234567").2 "ILNSIDs"
        = some (marshalHolder ⟨[] ++ ["AB1234567"]⟩) ∧
      unmarshalHolder
          ((GetState (create_member bootstrapped "alice" PARENTS "AB1234567").2
            "ILNSIDs").getD "") ⟨[]⟩
        = some ⟨[] ++ ["AB1234567"]⟩) ∧
    GetState (Invoke bootstrapped (some "") (some "parents") "update_gender" ["F", "ILNSIDs"]).2
        "ILNSIDs"
      = GetState bootstrapped "ILNSIDs" :=
  ⟨(index_append_only bootstrapped [] (by decide)).1 "alice" PARENTS "AB1234567" _
      (by decide :
        create_member bootstrapped "alice" PARENTS "AB1234567"
          = (Outcome.done, (create_member bootstrapped "alice" PARENTS "AB1234567").2)),
   (index_append_only bootstrapped [] (by decide)).2 (some "") (some "parents")
      "update_gender" ["F", "ILNSIDs"] (by decide) bootstrapped_records⟩

/-! ## Transitions -/

/-- C8 (as stated, refuted): `birthday_to_healthy` on a record whose details are not set,
called by somebody who is not the holder, fails with "Member not fully defined", which
is not an authorization error. -/
theorem birthday_to_healthy_non_holder_not_defined :
    birthday_to_healthy bootstrapped
        { Name := "bob", DOB := "UNDEFINED", Gender := "UNDEFINED", BloodGrp := "UNDEFINED",
          Weight := 0, Status := STATE_BIRTH, Dead := false, ILNSID := "AB1234567" }
        "mallory" BIRTHDAY "carol" HEALTHY
      = (Outcome.fail .notFullyDefined, bootstrapped) ∧
    Err.isAuthorization .notFullyDefined = false := by
  refine ⟨by decide, by decide⟩

/-- C8 (amended): each of the seven transitions, called by somebody whose name is not
the record's holder name, fails and leaves the ledger as it is; the error is the
permission-denied one, except that `birthday_to_healthy` on a record with a detail
field at its sentinel reports "Member not fully defined". -/
theorem transition_by_non_holder (st : Ledger) (m : Member) (caller aff rn ra : String)
    (h : m.Name ≠ caller) :
    parents_to_birthday st m caller aff rn ra
      = (Outcome.fail (.permissionDenied "parents_to_birthday"), st) ∧
    birthday_to_healthy st m caller aff rn ra
      = (if m.DOB = "UNDEFINED" ∨ m.Gender = "UNDEFINED" ∨ m.BloodGrp = "UNDEFINED" ∨
            m.Weight = 0
          then Outcome.fail .notFullyDefined
          else Outcome.fail (.permissionDenied "birthday_to_healthy"), st) ∧
    healthy_to_illness st m caller aff rn ra
      = (Outcome.fail (.permissionDenied "healthy_to_illness"), st) ∧
    illness_to_illness st m caller aff rn ra
      = (Outcome.fail (.permissionDenied "illness_to_illness"), st) ∧
    illness_to_healthy st m caller aff rn ra
      = (Outcome.fail (.permissionDenied "illness_to_healthy"), st) ∧
    healthy_to_death st m caller aff rn ra
      = (Outcome.fail (.permissionDenied "healthy_to_death"), st) ∧
    illness_to_death st m caller aff rn ra
      = (Outcome.fail (.permissionDenied "illness_to_death"), st) := by
  refine ⟨?_, ?_, ?_, ?_, ?_, ?_, ?_⟩
  · unfold parents_to_birthday
    rw [if_neg (fun hg => h hg.2.1)]
  · unfold birthday_to_healthy
    split
    · rfl
    · rw [if_neg (fun hg => h hg.2.1)]
  · unfold healthy_to_illness
    rw [if_neg (fun hg => h hg.2.1)]
  · unfold illness_to_illness
    rw [if_neg (fun hg => h hg.2.1)]
  · unfold illness_to_healthy
    rw [if_neg (fun hg => h hg.2.1)]
  · unfold healthy_to_death
    rw [if_neg (fun hg => h hg.2.1)]
  · unfold illness_to_death
    rw [if_neg (fun hg => h hg.2.1)]

/-- C8 (witness): mallory on bob's record. -/
theorem transition_by_non_holder_witness :
    parents_to_birthday bootstrapped sampleRecord "mallory" PARENTS "eve" BIRTHDAY
      = (Outcome.fail (.permissionDenied "parents_to_birthday"), bootstrapped) ∧
    birthday_to_healthy bootstrapped sampleRecord "mallory" PARENTS "eve" BIRTHDAY
      = (if sampleRecord.DOB = "UNDEFINED" ∨ sampleRecord.Gender = "UNDEFINED" ∨
            sampleRecord.BloodGrp = "UNDEFINED" ∨ sampleRecord.Weight = 0
          then Outcome.fail .notFullyDefined
          else Outcome.fail (.permissionDenied "birthday_to_healthy"), bootstrapped) ∧
    healthy_to_illness bootstrapped sampleRecord "mallory" PARENTS "eve" BIRTHDAY
      = (Outcome.fail (.permissionDenied "healthy_to_illness"), bootstrapped) ∧
    illness_to_illness bootstrapped sampleRecord "mallory" PARENTS "eve" BIRTHDAY
      = (Outcome.fail (.permissionDenied "illness_to_illness"), bootstrapped) ∧
    illness_to_healthy bootstrapped sampleRecord "mallory" PARENTS "eve" BIRTHDAY
      = (Outcome.fail (.permissionDenied "illness_to_healthy"), bootstrapped) ∧
    healthy_to_death bootstrapped sampleRecord "mallory" PARENTS "eve" BIRTHDAY
      = (Outcome.fail (.permissionDenied "healthy_to_death"), bootstrapped) ∧
    illness_to_death bootstrapped sampleRecord "mallory" PARENTS "eve" BIRTHDAY
      = (Outcome.fail (.permissionDenied "illness_to_death"), bootstrapped) :=
  transition_by_non_holder bootstrapped sampleRecord "mallory" PARENTS "eve" BIRTHDAY
    (by decide)

/-- C9: `parents_to_birthday` succeeds exactly when the stage is Carrying, the caller is
the holder, the caller is a Guardian, the recipient a BirthRegistrar and the member is
not dead; it then writes, under the record's identifier, the record with the holder name
replaced by the recipient's and every other field, the stage included, as it was; in
every other case it writes nothing. -/
theorem parents_to_birthday_spec (st : Ledger) (m : Member) (caller aff rn ra : String) :
    ((parents_to_birthday st m caller aff rn ra).1.succeeded = true ↔
      (m.Status = STATE_CARRYING ∧ m.Name = caller ∧ aff = PARENTS ∧ ra = BIRTHDAY ∧
        m.Dead = false)) ∧
    (parents_to_birthday st m caller aff rn ra).2
      = (if m.Status = STATE_CARRYING ∧ m.Name = caller ∧ aff = PARENTS ∧ ra = BIRTHDAY ∧
            m.Dead = false
          then PutState st m.ILNSID (marshalMember { m with Name := rn })
          else st) := by
  unfold parents_to_birthday
  by_cases hg : m.Status = STATE_CARRYING ∧ m.Name = caller ∧ aff = PARENTS ∧ ra = BIRTHDAY ∧
      m.Dead = false
  · rw [if_pos hg, if_pos hg]
    refine ⟨⟨fun _ => hg, fun _ => rfl⟩, ?_⟩
    unfold save_changes
    have hs : ({ m with Name := rn, Status := STATE_CARRYING } : Member)
        = { m with Name := rn } := by
      rw [← hg.1]
    rw [hs]
  · rw [if_neg hg, if_neg hg]
    exact ⟨⟨fun hc => (by cases hc), fun hc => absurd hc hg⟩, rfl⟩

/-- C10: `birthday_to_healthy` succeeds exactly when the four detail fields are away
from their sentinels, the stage is Birth, the caller is the holder, the caller is a
BirthRegistrar, the recipient a HealthProvider and the member is not dead; it then
writes, under the record's identifier, the record with the holder name replaced by the
recipient's and the stage set to Healthy, nothing else changed; in every other case it
writes nothing. -/
theorem birthday_to_healthy_spec (st : Ledger) (m : Member) (caller aff rn ra : String) :
    ((birthday_to_healthy st m caller aff rn ra).1.succeeded = true ↔
      ((m.DOB ≠ "UNDEFINED" ∧ m.Gender ≠ "UNDEFINED" ∧ m.BloodGrp ≠ "UNDEFINED" ∧
          m.Weight ≠ 0) ∧
        m.Status = STATE_BIRTH ∧ m.Name = caller ∧ aff = BIRTHDAY ∧ ra = HEALTHY ∧
        m.Dead = false)) ∧
    (birthday_to_healthy st m caller aff rn ra).2
      = (if (m.DOB ≠ "UNDEFINED" ∧ m.Gender ≠ "UNDEFINED" ∧ m.BloodGrp ≠ "UNDEFINED" ∧
              m.Weight ≠ 0) ∧
            m.Status = STATE_BIRTH ∧ m.Name = caller ∧ aff = BIRTHDAY ∧ ra = HEALTHY ∧
            m.Dead = false
          then PutState st m.ILNSID
            (marshalMember { m with Name := rn, Status := STATE_HEALTHY })
          else st) := by
  unfold birthday_to_healthy
  by_cases hd : m.DOB = "UNDEFINED" ∨ m.Gender = "UNDEFINED" ∨ m.BloodGrp = "UNDEFINED" ∨
      m.Weight = 0
  · have hn : ¬ ((m.DOB ≠ "UNDEFINED" ∧ m.Gender ≠ "UNDEFINED" ∧ m.BloodGrp ≠ "UNDEFINED" ∧
          m.Weight ≠ 0) ∧
        m.Status = STATE_BIRTH ∧ m.Name = caller ∧ aff = BIRTHDAY ∧ ra = HEALTHY ∧
        m.Dead = false) := by
      rintro ⟨⟨h1, h2, h3, h4⟩, _⟩
      rcases hd with h | h | h | h
      · exact h1 h
      · exact h2 h
      · exact h3 h
      · exact h4 h
    rw [if_pos hd, if_neg hn]
    exact ⟨⟨fun hc => (by cases hc), fun hc => absurd hc hn⟩, rfl⟩
  · have hd1 : m.DOB ≠ "UNDEFINED" ∧ m.Gender ≠ "UNDEFINED" ∧ m.BloodGrp ≠ "UNDEFINED" ∧
        m.Weight ≠ 0 := by
      refine ⟨fun h => hd (Or.inl h), fun h => hd (Or.inr (Or.inl h)),
        fun h => hd (Or.inr (Or.inr (Or.inl h))), fun h => hd (Or.inr (Or.inr (Or.inr h)))⟩
    rw [if_neg hd]
    by_cases hg : m.Status = STATE_BIRTH ∧ m.Name = caller ∧ aff = BIRTHDAY ∧ ra = HEALTHY ∧
        m.Dead = false
    · rw [if_pos hg, if_pos ⟨hd1, hg⟩]
      exact ⟨⟨fun _ => ⟨hd1, hg⟩, fun _ => rfl⟩, rfl⟩
    · rw [if_neg hg, if_neg (fun hc => hg hc.2)]
      exact ⟨⟨fun hc => (by cases hc), fun hc => absurd hc.2 hg⟩, rfl⟩

/-! ## Transitions, continued -/

/-- A guarded operation: it succeeds exactly when its guard holds, and then leaves the
ledger `st1`; otherwise the ledger `st` it started from. -/
theorem guarded_spec (G : Prop) [Decidable G] (st st1 : Ledger) (e : Err) :
    (((if G then (Outcome.done, st1) else (Outcome.fail e, st)) : Outcome × Ledger).1.succeeded
        = true ↔ G) ∧
    ((if G then (Outcome.done, st1) else (Outcome.fail e, st)) : Outcome × Ledger).2
      = (if G then st1 else st) := by
  by_cases hg : G
  · rw [if_pos hg, if_pos hg]
    exact ⟨⟨fun _ => hg, fun _ => rfl⟩, rfl⟩
  · rw [if_neg hg, if_neg hg]
    exact ⟨⟨fun hc => (by cases hc), fun hc => absurd hc hg⟩, rfl⟩

/-- C11 (as stated, refuted): bob, a BirthRegistrar, holds a record whose four details
are set and whose stage is Carrying; his `birthday_to_healthy` to a HealthProvider is
denied. -/
theorem birthday_to_healthy_details_not_enough :
    birthday_to_healthy bootstrapped
        { Name := "bob", DOB := "2016-05-01", Gender := "F", BloodGrp := "O+", Weight := 3500,
          Status := STATE_CARRYING, Dead := false, ILNSID := "AB1234567" }
        "bob" BIRTHDAY "carol" HEALTHY
      = (Outcome.fail (.permissionDenied "birthday_to_healthy"), bootstrapped) := by
  decide

/-- C11 (amended): on a record with a detail field at its sentinel, `birthday_to_healthy`
fails with "Member not fully defined", whoever calls it; on a record whose four details
are set it succeeds when invoked by the holder with BirthRegistrar affiliation, provided
the stage is Birth, the member is not dead and the recipient is a HealthProvider. -/
theorem birthday_to_healthy_details (st : Ledger) (m : Member) (caller aff rn ra : String) :
    ((m.DOB = "UNDEFINED" ∨ m.Gender = "UNDEFINED" ∨ m.BloodGrp = "UNDEFINED" ∨ m.Weight = 0) →
      birthday_to_healthy st m caller aff rn ra = (Outcome.fail .notFullyDefined, st)) ∧
    ((m.DOB ≠ "UNDEFINED" ∧ m.Gender ≠ "UNDEFINED" ∧ m.BloodGrp ≠ "UNDEFINED" ∧ m.Weight ≠ 0) →
      m.Status = STATE_BIRTH → m.Dead = false →
      birthday_to_healthy st m m.Name BIRTHDAY rn HEALTHY
        = (Outcome.done,
            PutState st m.ILNSID
              (marshalMember { m with Name := rn, Status := STATE_HEALTHY }))) := by
  constructor
  · intro hd
    unfold birthday_to_healthy
    rw [if_pos hd]
  · rintro ⟨h1, h2, h3, h4⟩ hs hdead
    unfold birthday_to_healthy
    rw [if_neg (by
      rintro (h | h | h | h)
      · exact h1 h
      · exact h2 h
      · exact h3 h
      · exact h4 h), if_pos ⟨hs, rfl, rfl, rfl, hdead⟩]
    rfl

/-- C12: `healthy_to_death` (stage Healthy, caller HealthProvider) and `illness_to_death`
(stage Illness, caller IllnessProvider) each succeed exactly when the stage and the
caller affiliation are the required ones, the caller is the holder, the recipient is a
DeathRegistrar and the member is not dead; each then writes, under the record's
identifier, the record with the holder name replaced by the recipient's and the stage
set to Death, and writes nothing in every other case. -/
theorem to_death_spec (st : Ledger) (m : Member) (caller aff rn ra : String) :
    (((healthy_to_death st m caller aff rn ra).1.succeeded = true ↔
        (m.Status = STATE_HEALTHY ∧ m.Name = caller ∧ aff = HEALTHY ∧ ra = DEATH ∧
          m.Dead = false)) ∧
      (healthy_to_death st m caller aff rn ra).2
        = (if m.Status = STATE_HEALTHY ∧ m.Name = caller ∧ aff = HEALTHY ∧ ra = DEATH ∧
              m.Dead = false
            then PutState st m.ILNSID
              (marshalMember { m with Name := rn, Status := STATE_DEATH })
            else st)) ∧
    (((illness_to_death st m caller aff rn ra).1.succeeded = true ↔
        (m.Status = STATE_ILLNESS ∧ m.Name = caller ∧ aff = ILLNESS ∧ ra = DEATH ∧
          m.Dead = false)) ∧
      (illness_to_death st m caller aff rn ra).2
        = (if m.Status = STATE_ILLNESS ∧ m.Name = caller ∧ aff = ILLNESS ∧ ra = DEATH ∧
              m.Dead = false
            then PutState st m.ILNSID
              (marshalMember { m with Name := rn, Status := STATE_DEATH })
            else st)) :=
  ⟨guarded_spec _ st _ _, guarded_spec _ st _ _⟩

/-- C13: `healthy_to_illness` (stage Healthy, caller HealthProvider), `illness_to_illness`
(stage Illness, caller IllnessProvider) and `illness_to_healthy` (stage Illness, caller
HealthProvider), each with an IllnessProvider as recipient, succeed exactly when these
requirements hold, the caller is the holder and the member is not dead; each then
writes, under the record's identifier, the record with only the holder name replaced by
the recipient's, and writes nothing in every other case. -/
theorem custody_only_spec (st : Ledger) (m : Member) (caller aff rn ra : String) :
    (((healthy_to_illness st m caller aff rn ra).1.succeeded = true ↔
        (m.Status = STATE_HEALTHY ∧ m.Name = caller ∧ aff = HEALTHY ∧ ra = ILLNESS ∧
          m.Dead = false)) ∧
      (healthy_to_illness st m caller aff rn ra).2
        = (if m.Status = STATE_HEALTHY ∧ m.Name = caller ∧ aff = HEALTHY ∧ ra = ILLNESS ∧
              m.Dead = false
            then PutState st m.ILNSID (marshalMember { m with Name := rn })
            else st)) ∧
    (((illness_to_illness st m caller aff rn ra).1.succeeded = true ↔
        (m.Status = STATE_ILLNESS ∧ m.Name = caller ∧ aff = ILLNESS ∧ ra = ILLNESS ∧
          m.Dead = false)) ∧
      (illness_to_illness st m caller aff rn ra).2
        = (if m.Status = STATE_ILLNESS ∧ m.Name = caller ∧ aff = ILLNESS ∧ ra = ILLNESS ∧
              m.Dead = false
            then PutState st m.ILNSID (marshalMember { m with Name := rn })
            else st)) ∧
    (((illness_to_healthy st m caller aff rn ra).1.succeeded = true ↔
        (m.Status = STATE_ILLNESS ∧ m.Name = caller ∧ aff = HEALTHY ∧ ra = ILLNESS ∧
          m.Dead = false)) ∧
      (illness_to_healthy st m caller aff rn ra).2
        = (if m.Status = STATE_ILLNESS ∧ m.Name = caller ∧ aff = HEALTHY ∧ ra = ILLNESS ∧
              m.Dead = false
            then PutState st m.ILNSID (marshalMember { m with Name := rn })
            else st)) :=
  ⟨guarded_spec _ st _ _, guarded_spec _ st _ _, guarded_spec _ st _ _⟩

/-- C14: `dead_member` succeeds exactly when the stage is Death, the caller is the
holder, the caller is a DeathRegistrar and the member is not dead; it then writes, under
the record's identifier, the record with the dead flag set and every other field as it
was, and writes nothing in every other case. -/
theorem dead_member_spec (st : Ledger) (m : Member) (caller aff : String) :
    ((dead_member st m caller aff).1.succeeded = true ↔
      (m.Status = STATE_DEATH ∧ m.Name = caller ∧ aff = DEATH ∧ m.Dead = false)) ∧
    (dead_member st m caller aff).2
      = (if m.Status = STATE_DEATH ∧ m.Name = caller ∧ aff = DEATH ∧ m.Dead = false
          then PutState st m.ILNSID (marshalMember { m with Dead := true })
          else st) :=
  guarded_spec _ st _ _

/-- C11 (witness): a record with no date of birth is refused, whoever calls; bob's
record in stage Birth with the four details set goes to carol. -/
theorem birthday_to_healthy_details_witness :
    birthday_to_healthy bootstrapped { sampleRecord with DOB := "UNDEFINED" }
        "mallory" PARENTS "carol" HEALTHY
      = (Outcome.fail .notFullyDefined, bootstrapped) ∧
    birthday_to_healthy bootstrapped sampleRecord sampleRecord.Name BIRTHDAY "carol" HEALTHY
      = (Outcome.done,
          PutState bootstrapped sampleRecord.ILNSID
            (marshalMember { sampleRecord with Name := "carol", Status := STATE_HEALTHY })) :=
  ⟨(birthday_to_healthy_details bootstrapped { sampleRecord with DOB := "UNDEFINED" }
      "mallory" PARENTS "carol" HEALTHY).1 (Or.inl rfl),
   (birthday_to_healthy_details bootstrapped sampleRecord "bob" BIRTHDAY "carol" HEALTHY).2
      (by decide) (by decide) (by decide)⟩

/-! ## Terminal marking and the dead flag -/

theorem guarded_keepsDead (G : Prop) [Decidable G] (st : Ledger) (m m1 : Member) (e : Err)
    (h : m1.Dead = m.Dead) :
    keepsDead st m (if G then (Outcome.done, save_changes st m1) else (Outcome.fail e, st)) := by
  by_cases hg : G
  · rw [if_pos hg]; exact Or.inr ⟨m1, rfl, h⟩
  · rw [if_neg hg]; exact Or.inl rfl

theorem guarded_failsClean (G : Prop) [Decidable G] (st st1 : Ledger) (e : Err) :
    failsClean st (if G then (Outcome.done, st1) else (Outcome.fail e, st)) := by
  by_cases hg : G
  · rw [if_pos hg]; intro h; cases h
  · rw [if_neg hg]; intro _; rfl

/-- C15: when `dead_member` succeeds on a record, it writes that record with the dead
flag set; `dead_member` on the record so written fails with the permission-denied error,
whoever calls it and on whatever ledger, and writes nothing. -/
theorem dead_member_once (st st2 : Ledger) (m : Member) (caller aff caller2 aff2 : String)
    (h : (dead_member st m caller aff).1.succeeded = true) :
    (dead_member st m caller aff).2 = save_changes st { m with Dead := true } ∧
    dead_member st2 { m with Dead := true } caller2 aff2
      = (Outcome.fail (.permissionDenied "dead_member"), st2) := by
  constructor
  · unfold dead_member at h ⊢
    by_cases hg : m.Status = STATE_DEATH ∧ m.Name = caller ∧ aff = DEATH ∧ m.Dead = false
    · rw [if_pos hg]
    · rw [if_neg hg] at h; cases h
  · unfold dead_member
    rw [if_neg (fun hg => by cases hg.2.2.2)]

/-- C15 (witness): dana, DeathRegistrar, on the record in stage Death that she holds. -/
theorem dead_member_once_witness :
    (dead_member bootstrapped deathRecord "dana" DEATH).2
      = save_changes bootstrapped { deathRecord with Dead := true } ∧
    dead_member (dead_member bootstrapped deathRecord "dana" DEATH).2
        { deathRecord with Dead := true } "dana" DEATH
      = (Outcome.fail (.permissionDenied "dead_member"),
          (dead_member bootstrapped deathRecord "dana" DEATH).2) :=
  dead_member_once bootstrapped (dead_member bootstrapped deathRecord "dana" DEATH).2
    deathRecord "dana" DEATH "dana" DEATH (by decide)

/-- C16: each of the seven transitions and of the four field updates writes nothing or
writes a record with the dead flag it was given; `dead_member` writes nothing or, the
stage being Death and the flag false, writes the record with the flag set; and on a
record whose flag is set every one of the twelve operations fails with the
permission-denied (for `update_Weight` possibly the invalid-weight) error and writes
nothing. -/
theorem dead_flag_only_by_dead_member (st : Ledger) (m : Member)
    (caller aff rn ra v : String) :
    (keepsDead st m (parents_to_birthday st m caller aff rn ra) ∧
      keepsDead st m (birthday_to_healthy st m caller aff rn ra) ∧
      keepsDead st m (healthy_to_illness st m caller aff rn ra) ∧
      keepsDead st m (illness_to_illness st m caller aff rn ra) ∧
      keepsDead st m (illness_to_healthy st m caller aff rn ra) ∧
      keepsDead st m (healthy_to_death st m caller aff rn ra) ∧
      keepsDead st m (illness_to_death st m caller aff rn ra) ∧
      keepsDead st m (update_DOB st m caller aff v) ∧
      keepsDead st m (update_gender st m caller aff v) ∧
      keepsDead st m (update_BloodGrp st m caller aff v) ∧
      keepsDead st m (update_Weight st m caller aff v)) ∧
    ((dead_member st m caller aff).2 = st ∨
      (m.Status = STATE_DEATH ∧ m.Dead = false ∧
        (dead_member st m caller aff).2 = save_changes st { m with Dead := true })) ∧
    (m.Dead = true →
      (parents_to_birthday st m caller aff rn ra).2 = st ∧
      (birthday_to_healthy st m caller aff rn ra).2 = st ∧
      (healthy_to_illness st m caller aff rn ra).2 = st ∧
      (illness_to_illness st m caller aff rn ra).2 = st ∧
      (illness_to_healthy st m caller aff rn ra).2 = st ∧
      (healthy_to_death st m caller aff rn ra).2 = st ∧
      (illness_to_death st m caller aff rn ra).2 = st ∧
      (update_DOB st m caller aff v).2 = st ∧
      (update_gender st m caller aff v).2 = st ∧
      (update_BloodGrp st m caller aff v).2 = st ∧
      (update_Weight st m caller aff v).2 = st ∧
      (dead_member st m caller aff).2 = st) := by
  refine ⟨⟨?_, ?_, ?_, ?_, ?_, ?_, ?_, ?_, ?_, ?_, ?_⟩, ?_, ?_⟩
  · exact guarded_keepsDead _ st m _ _ rfl
  · unfold birthday_to_healthy
    split
    · exact Or.inl rfl
    · exact guarded_keepsDead _ st m _ _ rfl
  · exact guarded_keepsDead _ st m _ _ rfl
  · exact guarded_keepsDead _ st m _ _ rfl
  · exact guarded_keepsDead _ st m _ _ rfl
  · exact guarded_keepsDead _ st m _ _ rfl
  · exact guarded_keepsDead _ st m _ _ rfl
  · exact guarded_keepsDead _ st m _ _ rfl
  · exact guarded_keepsDead _ st m _ _ rfl
  · exact guarded_keepsDead _ st m _ _ rfl
  · unfold update_Weight
    split
    · exact Or.inl rfl
    · split
      · exact Or.inl rfl
      · exact guarded_keepsDead _ st m _ _ rfl
  · unfold dead_member
    by_cases hg : m.Status = STATE_DEATH ∧ m.Name = caller ∧ aff = DEATH ∧ m.Dead = false
    · rw [if_pos hg]; exact Or.inr ⟨hg.1, hg.2.2.2, rfl⟩
    · rw [if_neg hg]; exact Or.inl rfl
  · intro hd
    have hf : m.Dead ≠ false := by rw [hd]; decide
    refine ⟨?_, ?_, ?_, ?_, ?_, ?_, ?_, ?_, ?_, ?_, ?_, ?_⟩
    · unfold parents_to_birthday; rw [if_neg (fun hg => hf hg.2.2.2.2)]
    · unfold birthday_to_healthy
      split
      · rfl
      · rw [if_neg (fun hg => hf hg.2.2.2.2)]
    · unfold healthy_to_illness; rw [if_neg (fun hg => hf hg.2.2.2.2)]
    · unfold illness_to_illness; rw [if_neg (fun hg => hf hg.2.2.2.2)]
    · unfold illness_to_healthy; rw [if_neg (fun hg => hf hg.2.2.2.2)]
    · unfold healthy_to_death; rw [if_neg (fun hg => hf hg.2.2.2.2)]
    · unfold illness_to_death; rw [if_neg (fun hg => hf hg.2.2.2.2)]
    · unfold update_DOB; rw [if_neg (fun hg => hf hg.2.2)]
    · unfold update_gender; rw [if_neg (fun hg => hf hg.2.2)]
    · unfold update_BloodGrp; rw [if_neg (fun hg => hf hg.2.2)]
    · unfold update_Weight
      split
      · rfl
      · split
        · rfl
        · rw [if_neg (fun hg => hf hg.2.2)]
    · unfold dead_member; rw [if_neg (fun hg => hf hg.2.2.2)]

/-! ## Field updates -/

/-- C17: `update_DOB` and `update_BloodGrp` succeed exactly when the caller is the
holder, the caller is a BirthRegistrar and the member is not dead; `update_gender`
exactly when the caller is the holder, the caller is not a DeathRegistrar and the member
is not dead; no stage is asked for.  On success each writes, under the record's
identifier, the record with its field set to the supplied value; otherwise nothing. -/
theorem update_text_fields_spec (st : Ledger) (m : Member) (caller aff v : String) :
    (((update_DOB st m caller aff v).1.succeeded = true ↔
        (m.Name = caller ∧ aff = BIRTHDAY ∧ m.Dead = false)) ∧
      (update_DOB st m caller aff v).2
        = (if m.Name = caller ∧ aff = BIRTHDAY ∧ m.Dead = false
            then PutState st m.ILNSID (marshalMember { m with DOB := v }) else st)) ∧
    (((update_BloodGrp st m caller aff v).1.succeeded = true ↔
        (m.Name = caller ∧ aff = BIRTHDAY ∧ m.Dead = false)) ∧
      (update_BloodGrp st m caller aff v).2
        = (if m.Name = caller ∧ aff = BIRTHDAY ∧ m.Dead = false
            then PutState st m.ILNSID (marshalMember { m with BloodGrp := v }) else st)) ∧
    (((update_gender st m caller aff v).1.succeeded = true ↔
        (m.Name = caller ∧ aff ≠ DEATH ∧ m.Dead = false)) ∧
      (update_gender st m caller aff v).2
        = (if m.Name = caller ∧ aff ≠ DEATH ∧ m.Dead = false
            then PutState st m.ILNSID (marshalMember { m with Gender := v }) else st)) :=
  ⟨guarded_spec _ st _ _, guarded_spec _ st _ _, guarded_spec _ st _ _⟩

theorem len_cons_ascii (c : Char) (cs : List Char) (h : c.toNat < 0x80) :
    len (c :: cs) = len cs + 1 := by
  simp only [len, if_pos h]
  omega

theorem digitsValue_ascii (s : List Char) (acc n : Nat) (h : digitsValue s acc = some n) :
    len s = s.length := by
  induction s generalizing acc with
  | nil => rfl
  | cons c cs ih =>
    unfold digitsValue at h
    by_cases hd : isDigit c = true
    · rw [if_pos hd] at h
      have hc : c.toNat < 0x80 := by
        simp only [isDigit, Bool.and_eq_true, decide_eq_true_eq] at hd
        have e9 : '9'.toNat = 57 := rfl
        omega
      rw [len_cons_ascii _ _ hc, ih _ h, List.length_cons]
    · rw [if_neg hd] at h; cases h

/-- A text that `strconv.Atoi` accepts is ASCII: its length in bytes is its number of
characters. -/
theorem ParseInt_ascii (s : List Char) (n : Int) (h : ParseInt s = some n) :
    len s = s.length := by
  unfold ParseInt at h
  cases s with
  | nil => cases h
  | cons c cs =>
    dsimp only at h
    by_cases h1 : c = '-'
    · rw [if_pos h1] at h
      cases cs with
      | nil => cases h
      | cons d ds =>
        dsimp only at h
        cases hv : digitsValue (d :: ds) 0 with
        | none => rw [hv] at h; cases h
        | some k =>
          have := digitsValue_ascii _ _ _ hv
          subst h1
          rw [len_cons_ascii _ _ (by decide), this]
          rfl
    · rw [if_neg h1] at h
      by_cases h2 : c = '+'
      · rw [if_pos h2] at h
        cases cs with
        | nil => cases h
        | cons d ds =>
          dsimp only at h
          cases hv : digitsValue (d :: ds) 0 with
          | none => rw [hv] at h; cases h
          | some k =>
            have := digitsValue_ascii _ _ _ hv
            subst h2
            rw [len_cons_ascii _ _ (by decide), this]
            rfl
      · rw [if_neg h2] at h
        cases hv : digitsValue (c :: cs) 0 with
        | none => rw [hv] at h; cases h
        | some k => exact digitsValue_ascii _ _ _ hv

/-- C18: `update_Weight` fails with "Invalid value passed for new Weight", whoever the
caller is, when the supplied text does not parse as a decimal integer or is not exactly
15 characters long; when the text parses to `w` and is 15 characters long, it succeeds
exactly when the caller is the holder, the caller is not a DeathRegistrar and the member
is not dead, and it then writes the record with the weight set to `w`; otherwise
nothing. -/
theorem update_Weight_spec (st : Ledger) (m : Member) (caller aff v : String) :
    ((ParseInt v.data = none ∨ v.data.length ≠ 15) →
      update_Weight st m caller aff v = (Outcome.fail .invalidWeight, st)) ∧
    (∀ w, ParseInt v.data = some w → v.data.length = 15 →
      ((update_Weight st m caller aff v).1.succeeded = true ↔
          (m.Name = caller ∧ aff ≠ DEATH ∧ m.Dead = false)) ∧
      update_Weight st m caller aff v
        = (if m.Name = caller ∧ aff ≠ DEATH ∧ m.Dead = false
            then (Outcome.done, PutState st m.ILNSID (marshalMember { m with Weight := w }))
            else (Outcome.fail (.permissionDenied "update_Weight"), st))) := by
  constructor
  · intro h
    unfold update_Weight
    cases hp : ParseInt v.data with
    | none => rfl
    | some w =>
      dsimp only
      have hl : len v.data ≠ 15 := by
        rw [ParseInt_ascii _ _ hp]
        rcases h with h | h
        · rw [hp] at h; cases h
        · exact h
      rw [if_pos hl]
  · intro w hp hlen
    have hl : ¬ len v.data ≠ 15 := by
      rw [ParseInt_ascii _ _ hp, hlen]; decide
    have he : update_Weight st m caller aff v
        = (if m.Name = caller ∧ aff ≠ DEATH ∧ m.Dead = false
            then (Outcome.done, PutState st m.ILNSID (marshalMember { m with Weight := w }))
            else (Outcome.fail (.permissionDenied "update_Weight"), st)) := by
      unfold update_Weight
      rw [hp]
      dsimp only
      rw [if_neg hl]
      rfl
    rw [he]
    exact ⟨(guarded_spec _ st _ _).1, rfl⟩

/-- C18 (witness): a weight of fourteen characters is refused; `000000000003500` sets
the weight of bob's record to 3500. -/
theorem update_Weight_spec_witness :
    update_Weight bootstrapped sampleRecord "bob" BIRTHDAY "00000000003500"
      = (Outcome.fail .invalidWeight, bootstrapped) ∧
    update_Weight bootstrapped sampleRecord "bob" BIRTHDAY "000000000004200"
      = (if sampleRecord.Name = "bob" ∧ BIRTHDAY ≠ DEATH ∧ sampleRecord.Dead = false
          then (Outcome.done,
            PutState bootstrapped sampleRecord.ILNSID
              (marshalMember { sampleRecord with Weight := 4200 }))
          else (Outcome.fail (.permissionDenied "update_Weight"), bootstrapped)) :=
  ⟨(update_Weight_spec bootstrapped sampleRecord "bob" BIRTHDAY "00000000003500").1
      (Or.inr (by decide)),
   ((update_Weight_spec bootstrapped sampleRecord "bob" BIRTHDAY "000000000004200").2
      4200 (by decide) (by decide)).2⟩

/-- C19: a field update that succeeds writes, under the record's identifier, the record
it was given with that one field replaced: holder name, identifier, stage, dead flag and
the three other detail fields are those of the record before the call. -/
theorem update_changes_one_field (st : Ledger) (m : Member) (caller aff v : String) :
    ((update_DOB st m caller aff v).1.succeeded = true →
      (update_DOB st m caller aff v).2
        = PutState st m.ILNSID (marshalMember
            { Name := m.Name, DOB := v, Gender := m.Gender, BloodGrp := m.BloodGrp,
              Weight := m.Weight, Status := m.Status, Dead := m.Dead, ILNSID := m.ILNSID })) ∧
    ((update_gender st m caller aff v).1.succeeded = true →
      (update_gender st m caller aff v).2
        = PutState st m.ILNSID (marshalMember
            { Name := m.Name, DOB := m.DOB, Gender := v, BloodGrp := m.BloodGrp,
              Weight := m.Weight, Status := m.Status, Dead := m.Dead, ILNSID := m.ILNSID })) ∧
    ((update_BloodGrp st m caller aff v).1.succeeded = true →
      (update_BloodGrp st m caller aff v).2
        = PutState st m.ILNSID (marshalMember
            { Name := m.Name, DOB := m.DOB, Gender := m.Gender, BloodGrp := v,
              Weight := m.Weight, Status := m.Status, Dead := m.Dead, ILNSID := m.ILNSID })) ∧
    ((update_Weight st m caller aff v).1.succeeded = true →
      ∃ w, ParseInt v.data = some w ∧
        (update_Weight st m caller aff v).2
          = PutState st m.ILNSID (marshalMember
              { Name := m.Name, DOB := m.DOB, Gender := m.Gender, BloodGrp := m.BloodGrp,
                Weight := w, Status := m.Status, Dead := m.Dead, ILNSID := m.ILNSID })) := by
  refine ⟨?_, ?_, ?_, ?_⟩
  · intro h
    unfold update_DOB at h ⊢
    by_cases hg : m.Name = caller ∧ aff = BIRTHDAY ∧ m.Dead = false
    · rw [if_pos hg]; rfl
    · rw [if_neg hg] at h; cases h
  · intro h
    unfold update_gender at h ⊢
    by_cases hg : m.Name = caller ∧ aff ≠ DEATH ∧ m.Dead = false
    · rw [if_pos hg]; rfl
    · rw [if_neg hg] at h; cases h
  · intro h
    unfold update_BloodGrp at h ⊢
    by_cases hg : m.Name = caller ∧ aff = BIRTHDAY ∧ m.Dead = false
    · rw [if_pos hg]; rfl
    · rw [if_neg hg] at h; cases h
  · intro h
    unfold update_Weight at h ⊢
    cases hp : ParseInt v.data with
    | none => rw [hp] at h; cases h
    | some w =>
      rw [hp] at h
      dsimp only at h ⊢
      by_cases hl : len v.data ≠ 15
      · rw [if_pos hl] at h; cases h
      · rw [if_neg hl] at h ⊢
        by_cases hg : m.Name = caller ∧ aff ≠ DEATH ∧ m.Dead = false
        · rw [if_pos hg]; exact ⟨w, rfl, rfl⟩
        · rw [if_neg hg] at h; cases h

/-- C19 (witness): bob sets the date of birth of his record. -/
theorem update_changes_one_field_witness :
    (update_DOB bootstrapped sampleRecord "bob" BIRTHDAY "2016-06-01").2
      = PutState bootstrapped sampleRecord.ILNSID (marshalMember
          { Name := sampleRecord.Name, DOB := "2016-06-01", Gender := sampleRecord.Gender,
            BloodGrp := sampleRecord.BloodGrp, Weight := sampleRecord.Weight,
            Status := sampleRecord.Status, Dead := sampleRecord.Dead,
            ILNSID := sampleRecord.ILNSID }) :=
  (update_changes_one_field bootstrapped sampleRecord "bob" BIRTHDAY "2016-06-01").1
    (by decide)

/-! ## Errors and writes -/

theorem GetState_faulty_nil (k : Nat) (st : Ledger) (key : String) :
    GetState_faulty (([] : List Bool).getD k false) st key = .ok (GetState st key) := rfl

theorem PutState_faulty_nil (k : Nat) (st : Ledger) (key value : String) :
    PutState_faulty (([] : List Bool).getD k false) st key value = .ok (PutState st key value) :=
  rfl

theorem save_changes_faulty_nil (k : Nat) (st : Ledger) (m : Member) :
    save_changes_faulty [] k st m = .ok (save_changes st m) := rfl

theorem save_or_fail_nil (e : Err) (st : Ledger) (m : Member) :
    save_or_fail e [] st m = (Outcome.done, save_changes st m) := rfl

theorem create_member_faulty_nil (st : Ledger) (caller aff id : String) :
    create_member_faulty [] st caller aff id = create_member st caller aff id := by
  unfold create_member_faulty create_member
  simp only [GetState_faulty_nil, PutState_faulty_nil, save_changes_faulty_nil]

/-- With no ledger call answered by an error, the functions with the error returns are
the functions named as in the source. -/
theorem faulty_agrees (st : Ledger) (m : Member) (caller aff rn ra v id : String) :
    create_member_faulty [] st caller aff id = create_member st caller aff id ∧
    parents_to_birthday_faulty [] st m caller aff rn ra
      = parents_to_birthday st m caller aff rn ra ∧
    birthday_to_healthy_faulty [] st m caller aff rn ra
      = birthday_to_healthy st m caller aff rn ra ∧
    healthy_to_illness_faulty [] st m caller aff rn ra
      = healthy_to_illness st m caller aff rn ra ∧
    illness_to_illness_faulty [] st m caller aff rn ra
      = illness_to_illness st m caller aff rn ra ∧
    illness_to_healthy_faulty [] st m caller aff rn ra
      = illness_to_healthy st m caller aff rn ra ∧
    healthy_to_death_faulty [] st m caller aff rn ra
      = healthy_to_death st m caller aff rn ra ∧
    illness_to_death_faulty [] st m caller aff rn ra
      = illness_to_death st m caller aff rn ra ∧
    update_DOB_faulty [] st m caller aff v = update_DOB st m caller aff v ∧
    update_BloodGrp_faulty [] st m caller aff v = update_BloodGrp st m caller aff v ∧
    update_gender_faulty [] st m caller aff v = update_gender st m caller aff v ∧
    update_Weight_faulty [] st m caller aff v = update_Weight st m caller aff v ∧
    dead_member_faulty [] st m caller aff = dead_member st m caller aff := by
  refine ⟨create_member_faulty_nil st caller aff id, ?_, ?_, ?_, ?_, ?_, ?_, ?_, ?_, ?_, ?_, ?_, ?_⟩
  · unfold parents_to_birthday_faulty parents_to_birthday; simp only [save_or_fail_nil]
  · unfold birthday_to_healthy_faulty birthday_to_healthy; simp only [save_or_fail_nil]
  · unfold healthy_to_illness_faulty healthy_to_illness; simp only [save_or_fail_nil]
  · unfold illness_to_illness_faulty illness_to_illness; simp only [save_or_fail_nil]
  · unfold illness_to_healthy_faulty illness_to_healthy; simp only [save_or_fail_nil]
  · unfold healthy_to_death_faulty healthy_to_death; simp only [save_or_fail_nil]
  · unfold illness_to_death_faulty illness_to_death; simp only [save_or_fail_nil]
  · unfold update_DOB_faulty update_DOB; simp only [save_or_fail_nil]
  · unfold update_BloodGrp_faulty update_BloodGrp; simp only [save_or_fail_nil]
  · unfold update_gender_faulty update_gender; simp only [save_or_fail_nil]
  · unfold update_Weight_faulty update_Weight; simp only [save_or_fail_nil]
  · unfold dead_member_faulty dead_member; simp only [save_or_fail_nil]

theorem save_or_fail_cases (e : Err) (fs : List Bool) (st : Ledger) (m : Member) :
    save_or_fail e fs st m = (Outcome.fail e, st) ∨
      save_or_fail e fs st m = (Outcome.done, save_changes st m) := by
  unfold save_or_fail save_changes_faulty PutState_faulty
  cases fs.getD 0 false
  · exact Or.inr rfl
  · exact Or.inl rfl

theorem guarded_faulty_failsClean (G : Prop) [Decidable G] (e e2 : Err) (fs : List Bool)
    (st : Ledger) (m1 : Member) :
    failsClean st (if G then save_or_fail e fs st m1 else (Outcome.fail e2, st)) := by
  by_cases hg : G
  · rw [if_pos hg]
    rcases save_or_fail_cases e fs st m1 with h | h
    · rw [h]; intro _; rfl
    · rw [h]; intro hs; cases hs
  · rw [if_neg hg]; intro _; rfl

theorem save_changes_faulty_ok (fs : List Bool) (k : Nat) (st st1 : Ledger) (m : Member)
    (h : save_changes_faulty fs k st m = .ok st1) : st1 = save_changes st m := by
  unfold save_changes_faulty PutState_faulty at h
  cases hb : fs.getD k false
  · rw [hb] at h; exact (Except.ok.inj h).symm
  · rw [hb] at h; cases h

/-- C20 (as stated, refuted): `create_member` returns an error after it has written the
record.  On a ledger whose index key holds bytes that do not decode it returns "Corrupt
ILNS_Holder record" and the ledger it leaves holds the record under the empty key; on the
bootstrapped ledger, when the peer answers the `GetState` of the index with an error it
returns "Unable to get ILNSIDs", when the peer answers the `PutState` of the index with
an error it returns "Unable to put the state", both times with the record written. -/
theorem create_member_error_after_write :
    ((create_member corruptIndexLedger "alice" PARENTS "AB1234567").1
        = Outcome.fail .corruptHolder ∧
      GetState corruptIndexLedger "" = none ∧
      GetState (create_member corruptIndexLedger "alice" PARENTS "AB1234567").2 ""
        = some (marshalMember (freshRecord "alice"))) ∧
    create_member_faulty [false, false, true] bootstrapped "alice" PARENTS "AB1234567"
      = (Outcome.fail .unableToGetIndex, save_changes bootstrapped (freshRecord "alice")) ∧
    create_member_faulty [false, false, false, true] bootstrapped "alice" PARENTS "AB1234567"
      = (Outcome.fail .unableToPutState, save_changes bootstrapped (freshRecord "alice")) ∧
    save_changes bootstrapped (freshRecord "alice") ≠ bootstrapped := by
  refine ⟨⟨by decide, by decide, by decide⟩, by decide, by decide, by decide⟩

/-- C20 (amended): whichever ledger calls the peer answers with an error, each of the
seven transitions, of the four field updates and `dead_member` has written nothing when
it returns an error; `create_member` has written nothing when it returns any error but
"Unable to get ILNSIDs", "Corrupt ILNS_Holder record" and "Unable to put the state", and
when it returns one of these three it has written the record it decoded, and nothing
else. -/
theorem error_writes_nothing (fs : List Bool) (st : Ledger) (m : Member)
    (caller aff rn ra v id : String) :
    (failsClean st (parents_to_birthday_faulty fs st m caller aff rn ra) ∧
      failsClean st (birthday_to_healthy_faulty fs st m caller aff rn ra) ∧
      failsClean st (healthy_to_illness_faulty fs st m caller aff rn ra) ∧
      failsClean st (illness_to_illness_faulty fs st m caller aff rn ra) ∧
      failsClean st (illness_to_healthy_faulty fs st m caller aff rn ra) ∧
      failsClean st (healthy_to_death_faulty fs st m caller aff rn ra) ∧
      failsClean st (illness_to_death_faulty fs st m caller aff rn ra) ∧
      failsClean st (update_DOB_faulty fs st m caller aff v) ∧
      failsClean st (update_gender_faulty fs st m caller aff v) ∧
      failsClean st (update_BloodGrp_faulty fs st m caller aff v) ∧
      failsClean st (update_Weight_faulty fs st m caller aff v) ∧
      failsClean st (dead_member_faulty fs st m caller aff)) ∧
    ((create_member_faulty fs st caller aff id).1.succeeded = false →
      (create_member_faulty fs st caller aff id).1 ≠ Outcome.fail .unableToGetIndex →
      (create_member_faulty fs st caller aff id).1 ≠ Outcome.fail .corruptHolder →
      (create_member_faulty fs st caller aff id).1 ≠ Outcome.fail .unableToPutState →
      (create_member_faulty fs st caller aff id).2 = st) ∧
    ((create_member_faulty fs st caller aff id).1 = Outcome.fail .unableToGetIndex ∨
      (create_member_faulty fs st caller aff id).1 = Outcome.fail .corruptHolder ∨
      (create_member_faulty fs st caller aff id).1 = Outcome.fail .unableToPutState →
      ∃ m1, unmarshalMember (member_json caller id) Member.zero = some m1 ∧
        (create_member_faulty fs st caller aff id).2 = save_changes st m1) := by
  refine ⟨⟨?_, ?_, ?_, ?_, ?_, ?_, ?_, ?_, ?_, ?_, ?_, ?_⟩, ?_, ?_⟩
  · exact guarded_faulty_failsClean _ _ _ fs st _
  · unfold birthday_to_healthy_faulty
    split
    · intro _; rfl
    · exact guarded_faulty_failsClean _ _ _ fs st _
  · exact guarded_faulty_failsClean _ _ _ fs st _
  · exact guarded_faulty_failsClean _ _ _ fs st _
  · exact guarded_faulty_failsClean _ _ _ fs st _
  · exact guarded_faulty_failsClean _ _ _ fs st _
  · exact guarded_faulty_failsClean _ _ _ fs st _
  · exact guarded_faulty_failsClean _ _ _ fs st _
  · exact guarded_faulty_failsClean _ _ _ fs st _
  · exact guarded_faulty_failsClean _ _ _ fs st _
  · unfold update_Weight_faulty
    split
    · intro _; rfl
    · split
      · intro _; rfl
      · exact guarded_faulty_failsClean _ _ _ fs st _
  · exact guarded_faulty_failsClean _ _ _ fs st _
  · unfold create_member_faulty
    split
    · intro _ _ _ _; rfl
    · split
      · intro _ _ _ _; rfl
      · dsimp only
        split
        · intro _ _ _ _; rfl
        · split
          · intro _ _ _ _; rfl
          · split
            · intro _ _ _ _; rfl
            · split
              · intro _ h _ _; exact absurd rfl h
              · split
                · intro _ _ h _; exact absurd rfl h
                · split
                  · intro _ _ _ h; exact absurd rfl h
                  · intro hs; cases hs
  · unfold create_member_faulty
    split
    · intro h; rcases h with h | h | h <;> cases h
    · split
      · intro h; rcases h with h | h | h <;> cases h
      · rename_i m1 hu
        dsimp only
        split
        · intro h; rcases h with h | h | h <;> cases h
        · split
          · intro h; rcases h with h | h | h <;> cases h
          · split
            · intro h; rcases h with h | h | h <;> cases h
            · rename_i st1 hs
              have hst := save_changes_faulty_ok fs 1 st st1 m1 hs
              split
              · intro _; exact ⟨m1, hu, hst⟩
              · split
                · intro _; exact ⟨m1, hu, hst⟩
                · split
                  · intro _; exact ⟨m1, hu, hst⟩
                  · intro h; rcases h with h | h | h <;> cases h

/-- C20 (witness): bob's `update_DOB` whose `PutState` the peer answers with an error, and
mallory's `update_DOB` on bob's record, fail and write nothing; `create_member` whose
`save_changes` fails has written nothing; `create_member` that cannot read the index has
written the record it decoded. -/
theorem error_writes_nothing_witness :
    (update_DOB_faulty [true] bootstrapped sampleRecord "bob" BIRTHDAY "2016-06-01").2
      = bootstrapped ∧
    (update_DOB_faulty [] bootstrapped sampleRecord "mallory" BIRTHDAY "2016-06-01").2
      = bootstrapped ∧
    (create_member_faulty [false, true] bootstrapped "alice" PARENTS "AB1234567").2
      = bootstrapped ∧
    ∃ m1, unmarshalMember (member_json "alice" "AB1234567") Member.zero = some m1 ∧
      (create_member_faulty [false, false, true] bootstrapped "alice" PARENTS "AB1234567").2
        = save_changes bootstrapped m1 :=
  ⟨(error_writes_nothing [true] bootstrapped sampleRecord "bob" BIRTHDAY "eve" HEALTHY
      "2016-06-01" "AB1234567").1.2.2.2.2.2.2.2.1 (by decide),
   (error_writes_nothing [] bootstrapped sampleRecord "mallory" BIRTHDAY "eve" HEALTHY
      "2016-06-01" "AB1234567").1.2.2.2.2.2.2.2.1 (by decide),
   (error_writes_nothing [false, true] bootstrapped sampleRecord "alice" PARENTS "eve" HEALTHY
      "2016-06-01" "AB1234567").2.1 (by decide) (by decide) (by decide) (by decide),
   (error_writes_nothing [false, false, true] bootstrapped sampleRecord "alice" PARENTS "eve"
      HEALTHY "2016-06-01" "AB1234567").2.2 (Or.inl (by decide))⟩

/-! ## Queries, the dispatcher and the zero weight -/

/-- C21: `get_member_details` returns the encoded record, with no error, exactly when
the caller is the holder or a Guardian; otherwise it returns the permission-denied
error and no bytes. -/
theorem get_member_details_spec (m : Member) (caller aff : String) :
    (get_member_details m caller aff = Outcome.ret (some (marshalMember m)) none ↔
      (m.Name = caller ∨ aff = PARENTS)) ∧
    (get_member_details m caller aff = Outcome.fail (.permissionDenied "get_mobile_details") ↔
      ¬ (m.Name = caller ∨ aff = PARENTS)) ∧
    Err.isAuthorization (.permissionDenied "get_mobile_details") = true := by
  unfold get_member_details
  by_cases hg : m.Name = caller ∨ aff = PARENTS
  · rw [if_pos hg]
    exact ⟨⟨fun _ => hg, fun _ => rfl⟩, ⟨fun h => (by cases h), fun h => absurd hg h⟩, rfl⟩
  · rw [if_neg hg]
    exact ⟨⟨fun h => (by cases h), fun h => absurd h hg⟩, ⟨fun _ => hg, fun _ => rfl⟩, rfl⟩

/-- C24 (as stated, refuted): under the index key the ledger `corruptIndexLedger` holds
bytes that do not decode; `check_unique_ILNS` of that key answers "true" with no
error. -/
theorem check_unique_ILNS_corrupt_bytes :
    GetState corruptIndexLedger "ILNSIDs" = some "no index" ∧
    retrieve_ILNS corruptIndexLedger "ILNSIDs" = .error .corruptMember ∧
    check_unique_ILNS corruptIndexLedger "ILNSIDs" = Outcome.ret (some "true") none := by
  refine ⟨by decide, by decide, by decide⟩

/-- C24 (amended): `check_unique_ILNS` answers "true", with no error, exactly when the
load of the identifier fails, whether nothing is stored under it or the stored bytes do
not decode; it answers "false" together with the error "ILNS is not unique" exactly when
the load succeeds. -/
theorem check_unique_ILNS_spec (st : Ledger) (id : String) :
    (check_unique_ILNS st id = Outcome.ret (some "true") none ↔
      unmarshalMember ((GetState st id).getD "") Member.zero = none) ∧
    (check_unique_ILNS st id = Outcome.ret (some "false") (some .notUnique) ↔
      ∃ m, unmarshalMember ((GetState st id).getD "") Member.zero = some m) ∧
    (GetState st id = none → check_unique_ILNS st id = Outcome.ret (some "true") none) := by
  unfold check_unique_ILNS retrieve_ILNS
  have hne : Outcome.ret (some "false") (some Err.notUnique) ≠ Outcome.ret (some "true") none := by
    decide
  refine ⟨?_, ?_, ?_⟩
  · cases unmarshalMember ((GetState st id).getD "") Member.zero with
    | none => exact ⟨fun _ => rfl, fun _ => rfl⟩
    | some m => exact ⟨fun h => absurd h hne, fun h => (by cases h)⟩
  · cases unmarshalMember ((GetState st id).getD "") Member.zero with
    | none => exact ⟨fun h => absurd h.symm hne, fun ⟨_, h⟩ => (by cases h)⟩
    | some m => exact ⟨fun _ => ⟨m, rfl⟩, fun _ => rfl⟩
  · intro h
    rw [h]
    rfl

/-- The dispatcher calls `illness_to_healthy` with the recipient affiliation "healthy". -/
theorem invokeLoaded_illness_to_healthy (st : Ledger) (m : Member) (c a a0 : String) :
    invokeLoaded st m c a "illness_to_healthy" a0
      = illness_to_healthy st m c a a0 "healthy" := by
  unfold invokeLoaded
  rw [if_pos (by decide), if_neg (by decide), if_neg (by decide), if_neg (by decide),
    if_neg (by decide), if_pos (by decide)]

/-- C27: `Invoke` with the function name `illness_to_healthy` never succeeds and writes
nothing, whatever the ledger, the caller and the arguments; when the caller's role can be
read, two arguments are present and the record loads, the error is the permission-denied
one of `illness_to_healthy`. -/
theorem Invoke_illness_to_healthy_fails (st : Ledger) (u r : Option String)
    (args : List String) :
    (Invoke st u r "illness_to_healthy" args).1.succeeded = false ∧
    (Invoke st u r "illness_to_healthy" args).2 = st ∧
    (∀ aff a0 id rest m, r = some aff → args = a0 :: id :: rest →
      retrieve_ILNS st id = .ok m →
      Invoke st u r "illness_to_healthy" args
        = (Outcome.fail (.permissionDenied "illness_to_healthy"), st)) := by
  have hfail : ∀ m c a a0, illness_to_healthy st m c a a0 "healthy"
      = (Outcome.fail (.permissionDenied "illness_to_healthy"), st) := by
    intro m c a a0
    unfold illness_to_healthy
    rw [if_neg (fun hg => absurd hg.2.2.2.1 (by decide))]
  have hinv : Invoke st u r "illness_to_healthy" args
      = (match get_caller_data u r with
        | none => (Outcome.fail .callerInformation, st)
        | some (caller, aff) =>
          match args[1]?, args[0]? with
          | some id, some a0 =>
            match retrieve_ILNS st id with
            | .error _ => (Outcome.fail .retrievingILNS, st)
            | .ok m => illness_to_healthy st m caller aff a0 "healthy"
          | _, _ => (Outcome.panic, st)) := by
    unfold Invoke
    cases get_caller_data u r with
    | none => rfl
    | some cd =>
      obtain ⟨caller, aff⟩ := cd
      dsimp only
      rw [if_neg (by decide), if_neg (by decide), if_neg (by decide)]
      cases args[1]? <;> cases args[0]? <;> rfl
  have hcase : ∃ o, Invoke st u r "illness_to_healthy" args = (o, st) ∧ o.succeeded = false := by
    rw [hinv]
    cases get_caller_data u r with
    | none => exact ⟨_, rfl, rfl⟩
    | some cd =>
      obtain ⟨caller, aff⟩ := cd
      dsimp only
      cases args[1]? with
      | none => exact ⟨_, rfl, rfl⟩
      | some id =>
        cases args[0]? with
        | none => exact ⟨_, rfl, rfl⟩
        | some a0 =>
          dsimp only
          cases retrieve_ILNS st id with
          | error e => exact ⟨_, rfl, rfl⟩
          | ok m =>
            dsimp only
            rw [hfail]
            exact ⟨_, rfl, rfl⟩
  obtain ⟨o, ho, hs⟩ := hcase
  refine ⟨?_, ?_, ?_⟩
  · rw [ho]; exact hs
  · rw [ho]
  · intro aff a0 id rest m hr ha hl
    rw [hinv]
    subst hr ha
    simp only [get_caller_data, List.getElem?_cons_succ, List.getElem?_cons_zero, hl, hfail]

/-- C29: the fifteen zeros are a weight that `update_Weight` accepts: called by the
holder of a live record with an affiliation other than DeathRegistrar it succeeds and
writes the record with weight 0, and `birthday_to_healthy` on that record fails with
"Member not fully defined", whoever calls it. -/
theorem update_Weight_zero (st st2 : Ledger) (m : Member) (caller aff c2 a2 rn ra : String)
    (hn : m.Name = caller) (ha : aff ≠ DEATH) (hd : m.Dead = false) :
    update_Weight st m caller aff "000000000000000"
      = (Outcome.done, save_changes st { m with Weight := 0 }) ∧
    birthday_to_healthy st2 { m with Weight := 0 } c2 a2 rn ra
      = (Outcome.fail .notFullyDefined, st2) := by
  constructor
  · unfold update_Weight
    have hp : ParseInt "000000000000000".data = some 0 := by decide
    rw [hp]
    dsimp only
    rw [if_neg (by decide), if_pos ⟨hn, ha, hd⟩]
  · unfold birthday_to_healthy
    rw [if_pos (Or.inr (Or.inr (Or.inr rfl)))]

/-- C29 (witness): bob, BirthRegistrar, on the record he holds. -/
theorem update_Weight_zero_witness :
    update_Weight bootstrapped sampleRecord "bob" BIRTHDAY "000000000000000"
      = (Outcome.done, save_changes bootstrapped { sampleRecord with Weight := 0 }) ∧
    birthday_to_healthy bootstrapped { sampleRecord with Weight := 0 } "bob" BIRTHDAY
        "carol" HEALTHY
      = (Outcome.fail .notFullyDefined, bootstrapped) :=
  update_Weight_zero bootstrapped bootstrapped sampleRecord "bob" BIRTHDAY "bob" BIRTHDAY
    "carol" HEALTHY (by decide) (by decide) (by decide)

/-! ## The listing of `get_members` -/

theorem commaEnded_eq (m : Member) (ms : List Member) :
    commaEnded (m :: ms) = commaJoined (m :: ms) ++ [','] := by
  induction ms generalizing m with
  | nil => simp [commaEnded, commaJoined]
  | cons m1 rest ih =>
    rw [commaEnded, ih m1, commaJoined]
    simp

theorem len_append (a b : List Char) : len (a ++ b) = len a + len b := by
  induction a with
  | nil => simp [len]
  | cons c cs ih =>
    rw [List.cons_append, len, len, ih]
    omega

theorem len_pos (c : Char) (cs : List Char) : 0 < len (c :: cs) := by
  unfold len
  split <;> [omega; split <;> [omega; split <;> omega]]

/-- The loop of `get_members` when every listed identifier loads. -/
theorem get_members_loop_loaded (st : Ledger) (caller aff : String) (L : List String)
    (ms : List Member) (result : String)
    (hload : List.Forall₂ (fun id m => retrieve_ILNS st id = .ok m) L ms) :
    get_members_loop st caller aff L result
      = some (String.mk (result.data ++ commaEnded (visible caller aff ms))) := by
  induction hload generalizing result with
  | nil =>
    show some result = some (String.mk (result.data ++ []))
    rw [List.append_nil]
  | @cons id m L ms h _ ih =>
    unfold get_members_loop
    rw [h]
    dsimp only
    unfold get_member_details visible
    by_cases hv : m.Name = caller ∨ aff = PARENTS
    · rw [if_pos hv]
      dsimp only
      rw [ih, List.filter_cons_of_pos (by simpa using hv)]
      simp only [String.data_append, commaEnded, List.append_assoc, visible]
      rfl
    · rw [if_neg hv]
      show get_members_loop st caller aff L result = _
      rw [ih, List.filter_cons_of_neg (by simpa using hv)]
      rfl

/-- C22: on a ledger whose index decodes to `L` and in which the identifiers of `L` load
as the records `ms`, `get_members` returns the JSON array of the encoded visible records
in index order (`[]` when there is none): all of `ms` for a Guardian, and for any other
caller the records of `ms` whose holder name is the caller's. -/
theorem get_members_spec (st : Ledger) (caller aff : String) (L : List String)
    (ms : List Member)
    (hL : unmarshalHolder ((GetState st "ILNSIDs").getD "") ⟨[]⟩ = some ⟨L⟩)
    (hload : List.Forall₂ (fun id m => retrieve_ILNS st id = .ok m) L ms) :
    get_members st caller aff = Outcome.ret (some (listing (visible caller aff ms))) none ∧
    (aff = PARENTS → visible caller aff ms = ms) ∧
    (aff ≠ PARENTS → visible caller aff ms = ms.filter (fun m => decide (m.Name = caller))) ∧
    listing [] = "[]" := by
  refine ⟨?_, ?_, ?_, rfl⟩
  · unfold get_members
    rw [hL]
    dsimp only
    rw [get_members_loop_loaded st caller aff L ms "[" hload]
    dsimp only
    cases hv : visible caller aff ms with
    | nil =>
      have h1 : len ("[".data ++ commaEnded []) = 1 := rfl
      rw [if_pos h1]
      rfl
    | cons m rest =>
      have h1 : len ("[".data ++ commaEnded (m :: rest)) ≠ 1 := by
        rw [len_append]
        have h2 : len "[".data = 1 := rfl
        have h3 : 0 < len (commaEnded (m :: rest)) := by
          rw [commaEnded_eq]
          rw [len_append]
          have : 0 < len [','] := len_pos _ _
          omega
        omega
      rw [if_neg h1, commaEnded_eq]
      have h4 : ("[".data ++ (commaJoined (m :: rest) ++ [','])).dropLast
          = '[' :: commaJoined (m :: rest) := by
        rw [← List.append_assoc, List.dropLast_concat]
        rfl
      rw [h4]
      rfl
  · intro ha
    unfold visible
    rw [List.filter_eq_self]
    intro m _
    simp [ha]
  · intro ha
    unfold visible
    congr 1
    funext m
    simp [ha]

/-- C22 (witness): the ledger `listedLedger`, as a Guardian sees it. -/
theorem get_members_spec_witness :
    get_members listedLedger "alice" PARENTS
      = Outcome.ret (some (listing (visible "alice" PARENTS [sampleRecord, deathRecord]))) none ∧
    (PARENTS = PARENTS →
      visible "alice" PARENTS [sampleRecord, deathRecord] = [sampleRecord, deathRecord]) ∧
    (PARENTS ≠ PARENTS →
      visible "alice" PARENTS [sampleRecord, deathRecord]
        = [sampleRecord, deathRecord].filter (fun m => decide (m.Name = "alice"))) ∧
    listing [] = "[]" :=
  get_members_spec listedLedger "alice" PARENTS ["AB1234567", "CD1234567"]
    [sampleRecord, deathRecord] (by decide)
    (List.Forall₂.cons (by decide) (List.Forall₂.cons (by decide) List.Forall₂.nil))

/-- The loop of `get_members` when a listed identifier does not load. -/
theorem get_members_loop_failed (st : Ledger) (caller aff : String) (L : List String)
    (result : String) (id : String) (hid : id ∈ L) (e : Err)
    (hbad : retrieve_ILNS st id = .error e) :
    get_members_loop st caller aff L result = none := by
  induction L generalizing result with
  | nil => cases hid
  | cons x rest ih =>
    unfold get_members_loop
    cases hx : retrieve_ILNS st x with
    | error e1 => rfl
    | ok m =>
      have hne : id ≠ x := by
        intro he
        rw [he, hx] at hbad
        cases hbad
      have hin : id ∈ rest := by
        cases hid with
        | head => exact absurd rfl hne
        | tail _ h => exact h
      dsimp only
      split
      · exact ih _ hin
      · exact ih _ hin

/-- C23 (as stated, refuted): after alice has created `AB1234567`, the index lists an
identifier under which nothing is stored, and `get_members` fails with "Failed to
retrieve ILNS" instead of returning a listing. -/
theorem get_members_aborts_after_create :
    unmarshalHolder ((GetState scenarioCreated "ILNSIDs").getD "") ⟨[]⟩
      = some ⟨["AB1234567"]⟩ ∧
    GetState scenarioCreated "AB1234567" = none ∧
    get_members scenarioCreated "alice" PARENTS = Outcome.fail .failedToRetrieve := by
  refine ⟨by decide, by decide, by decide⟩

/-- C23 (amended): on a ledger whose index decodes and lists an identifier that does not
load, because nothing is stored under it or because the stored bytes do not decode,
`get_members` fails with "Failed to retrieve ILNS" and returns no listing. -/
theorem get_members_aborts (st : Ledger) (caller aff : String) (L : List String)
    (id : String) (e : Err)
    (hL : unmarshalHolder ((GetState st "ILNSIDs").getD "") ⟨[]⟩ = some ⟨L⟩)
    (hid : id ∈ L) (hbad : retrieve_ILNS st id = .error e) :
    get_members st caller aff = Outcome.fail .failedToRetrieve := by
  unfold get_members
  rw [hL]
  dsimp only
  rw [get_members_loop_failed st caller aff L "[" id hid e hbad]

/-- C23 (witness): the ledger after alice's `create_member`. -/
theorem get_members_aborts_witness :
    get_members scenarioCreated "alice" PARENTS = Outcome.fail .failedToRetrieve :=
  get_members_aborts scenarioCreated "alice" PARENTS ["AB1234567"] "AB1234567" .corruptMember
    (by decide) (by decide) (by decide)

/-! ## Uniqueness and the empty key -/

/-- Nothing is stored under a nine-character identifier on the ledger that a first
`create_member` leaves: the record is under the empty key. -/
theorem GetState_after_create (id : String) (hlen : id.data.length = 9) (rec idx : String) :
    GetState (PutState (PutState bootstrapped "" rec) "ILNSIDs" idx) id = none := by
  have h1 : id ≠ "ILNSIDs" := by
    intro he
    rw [he] at hlen
    revert hlen
    decide
  have h2 : id ≠ "" := by
    intro he
    rw [he] at hlen
    revert hlen
    decide
  rw [GetState_PutState_ne _ _ _ _ (Ne.symm h1), GetState_PutState_ne _ _ _ _ (Ne.symm h2)]
  show GetState [("ILNSIDs", _)] id = none
  simp [GetState, Ne.symm h1]

/-- C25 (code defect): for every identifier in the format of the specification and every
Guardian with a plain name, `check_unique_ILNS` answers "true" on the bootstrapped
ledger, `create_member` succeeds, and `check_unique_ILNS` of the same identifier still
answers "true" afterwards: the record went under the empty key. -/
theorem check_unique_ILNS_after_create (caller id : String) (hid : validILNSID id = true)
    (hc : plainText caller = true) :
    check_unique_ILNS bootstrapped id = Outcome.ret (some "true") none ∧
    (create_member bootstrapped caller PARENTS id).1 = Outcome.done ∧
    check_unique_ILNS (create_member bootstrapped caller PARENTS id).2 id
      = Outcome.ret (some "true") none := by
  obtain ⟨hm, hi, hlen⟩ := validILNSID_facts id hid
  rw [create_member_bootstrapped caller id hm hi hc]
  refine ⟨?_, rfl, ?_⟩
  · have hne : "ILNSIDs" ≠ id := by
      intro he
      rw [← he] at hlen
      revert hlen
      decide
    have hg : GetState bootstrapped id = none := by
      show GetState [("ILNSIDs", _)] id = none
      simp [GetState, hne]
    unfold check_unique_ILNS retrieve_ILNS
    rw [hg]
    rfl
  · unfold check_unique_ILNS retrieve_ILNS
    rw [GetState_after_create id hlen]
    rfl

/-- C25 (witness): alice and `AB1234567`. -/
theorem check_unique_ILNS_after_create_witness :
    check_unique_ILNS bootstrapped "AB1234567" = Outcome.ret (some "true") none ∧
    (create_member bootstrapped "alice" PARENTS "AB1234567").1 = Outcome.done ∧
    check_unique_ILNS (create_member bootstrapped "alice" PARENTS "AB1234567").2 "AB1234567"
      = Outcome.ret (some "true") none :=
  check_unique_ILNS_after_create "alice" "AB1234567" (by decide) (by decide)

/-- C28 (as stated, refuted): the name `bo<TAB>b` has no quote and no backslash, yet
after alice has created `AB1234567` the `create_member` of `CD1234567` by a Guardian of
that name fails with "Invalid JSON object", not with "member already exists": a control
character is not allowed inside a JSON string. -/
theorem create_member_control_character :
    ('"' ∉ "bo\tb".data ∧ '\\' ∉ "bo\tb".data) ∧
    (create_member bootstrapped "alice" PARENTS "AB1234567").1 = Outcome.done ∧
    (create_member (create_member bootstrapped "alice" PARENTS "AB1234567").2
        "bo\tb" PARENTS "CD1234567").1 = Outcome.fail .invalidJSON := by
  refine ⟨by decide, by decide, by decide⟩

/-- C28 (amended): for any two identifiers in the format of the specification, equal or
different, and callers whose names have no quote, no backslash and no control
character: `create_member` of the first by a Guardian on the bootstrapped ledger writes
a record with an empty identifier field under the empty key, and the `create_member` of
the second that follows fails with "member already exists" and writes nothing. -/
theorem create_member_collides (a b c1 c2 aff2 : String) (ha : validILNSID a = true)
    (hb : validILNSID b = true) (h1 : plainText c1 = true) (h2 : plainText c2 = true) :
    create_member bootstrapped c1 PARENTS a
      = (Outcome.done,
          PutState (PutState bootstrapped "" (marshalMember (freshRecord c1)))
            "ILNSIDs" (marshalHolder ⟨[a]⟩)) ∧
    (freshRecord c1).ILNSID = "" ∧
    create_member (create_member bootstrapped c1 PARENTS a).2 c2 aff2 b
      = (Outcome.fail .memberExists, (create_member bootstrapped c1 PARENTS a).2) := by
  obtain ⟨hma, hia, _⟩ := validILNSID_facts a ha
  obtain ⟨hmb, hib, _⟩ := validILNSID_facts b hb
  rw [create_member_bootstrapped c1 a hma hia h1]
  refine ⟨rfl, rfl, ?_⟩
  show create_member _ c2 aff2 b = _
  unfold create_member
  rw [if_neg (by rw [hmb]; decide), unmarshal_member_json c2 b h2 hib]
  dsimp only
  have hg : (GetState (PutState (PutState bootstrapped "" (marshalMember (freshRecord c1)))
      "ILNSIDs" (marshalHolder ⟨[a]⟩)) (freshRecord c2).ILNSID).isSome = true := by
    show (GetState _ "").isSome = true
    rw [GetState_PutState_ne _ _ _ _ (by decide), GetState_PutState_same]
    rfl
  rw [if_pos hg]

/-- C28 (witness): alice creates `AB1234567`, then bob tries `CD1234567`. -/
theorem create_member_collides_witness :
    create_member bootstrapped "alice" PARENTS "AB1234567"
      = (Outcome.done,
          PutState (PutState bootstrapped "" (marshalMember (freshRecord "alice")))
            "ILNSIDs" (marshalHolder ⟨["AB1234567"]⟩)) ∧
    (freshRecord "alice").ILNSID = "" ∧
    create_member (create_member bootstrapped "alice" PARENTS "AB1234567").2
        "bob" PARENTS "CD1234567"
      = (Outcome.fail .memberExists,
          (create_member bootstrapped "alice" PARENTS "AB1234567").2) :=
  create_member_collides "AB1234567" "CD1234567" "alice" "bob" PARENTS (by decide) (by decide)
    (by decide) (by decide)

/-! ## Every created record is in stage Carrying -/

set_option maxHeartbeats 2000000 in
set_option maxRecDepth 4000 in
/-- Only inside a string that is the value of an object member can the scanner read the
text `", "DOB":`; it then stands before the value of the member `DOB`. -/
theorem run_closing_forces (S S1 : Scan) (h : run S "\", \"DOB\":".data = some S1) :
    ∃ raw ms k stk, S = ⟨.inString raw, .objValue ms k :: stk⟩ ∧
      S1 = ⟨.beginValue, .objValue (ms ++ [(k, .str (unquote raw))]) "DOB".data :: stk⟩ := by
  obtain ⟨mode, stack⟩ := S
  rcases stack with _ | ⟨f, rest⟩
  · cases mode <;>
      exact absurd h
        (by simp [run, step, stateBeginValue, stateEndValue, isSpace, isDigit, hexVal])
  · cases f with
    | arr xs =>
      cases mode <;>
        exact absurd h
          (by simp [run, step, stateBeginValue, stateEndValue, isSpace, isDigit, hexVal])
    | objKey ms =>
      cases mode <;>
        exact absurd h
          (by simp [run, step, stateBeginValue, stateEndValue, isSpace, isDigit, hexVal])
    | objValue ms k =>
      cases mode with
      | inString raw =>
        have hc : run ⟨.inString raw, .objValue ms k :: rest⟩ "\", \"DOB\":".data
            = some ⟨.beginValue,
                .objValue (ms ++ [(k, .str (unquote raw))]) "DOB".data :: rest⟩ := rfl
        rw [hc] at h
        cases h
        exact ⟨raw, ms, k, rest, rfl, rfl⟩
      | _ =>
        exact absurd h
          (by simp [run, step, stateBeginValue, stateEndValue, isSpace, isDigit, hexVal])

/-- The scanner over the fixed end of the JSON text of `create_member`: it can be read
only inside a string that is the value of an object member, and it closes that object
after the seven members of `tailMembers`. -/
theorem run_tail_forces (S S1 : Scan) (h : run S member_json_tail.data = some S1) :
    ∃ raw ms k stk, S = ⟨.inString raw, .objValue ms k :: stk⟩ ∧
      S1 = ⟨.endValue (.obj ((ms ++ [(k, .str (unquote raw))]) ++ tailMembers)), stk⟩ := by
  have hsplit : member_json_tail.data = "\", \"DOB\":".data ++
      "\"UNDEFINED\", \"Gender\":\"UNDEFINED\", \"BloodGrp\":\"UNDEFINED\", \"Weight\":0, \"ILNSID\":\"UNDEFINED\", \"Status\":0, \"Dead\":false\x7d".data := by
    decide
  rw [hsplit, run_append] at h
  cases h1 : run S "\", \"DOB\":".data with
  | none => rw [h1] at h; cases h
  | some S2 =>
    rw [h1, Option.some_bind] at h
    obtain ⟨raw, ms, k, stk, hS, hS2⟩ := run_closing_forces S S2 h1
    subst hS2
    have hr : ∀ ms1 : List (List Char × JValue),
        run ⟨.beginValue, .objValue ms1 "DOB".data :: stk⟩
          "\"UNDEFINED\", \"Gender\":\"UNDEFINED\", \"BloodGrp\":\"UNDEFINED\", \"Weight\":0, \"ILNSID\":\"UNDEFINED\", \"Status\":0, \"Dead\":false\x7d".data
        = some ⟨.endValue (.obj (ms1 ++ [("DOB".data, .str "UNDEFINED".data)] ++
            [("Gender".data, .str "UNDEFINED".data)] ++
            [("BloodGrp".data, .str "UNDEFINED".data)] ++ [("Weight".data, .num "0".data)] ++
            [("ILNSID".data, .str "UNDEFINED".data)] ++ [("Status".data, .num "0".data)] ++
            [("Dead".data, .bool false)])), stk⟩ :=
      fun _ => rfl
    rw [hr] at h
    cases h
    refine ⟨raw, ms, k, stk, hS, ?_⟩
    simp only [tailMembers, List.append_assoc, List.cons_append, List.nil_append]

theorem decodeMember_append (a b : List (List Char × JValue)) (z : Member) :
    decodeMember (a ++ b) z = (decodeMember a z).bind (decodeMember b) := by
  induction a generalizing z with
  | nil => rfl
  | cons kv rest ih =>
    obtain ⟨k, v⟩ := kv
    simp only [List.cons_append, decodeMember]
    cases findField k memberFields none with
    | none => exact ih z
    | some f =>
      dsimp only
      cases setField z f v with
      | none => rfl
      | some m1 => exact ih m1

/-- The seven members of the fixed end set the three text details to `UNDEFINED`, the
weight and the stage to 0 and the dead flag to false, whatever was decoded before. -/
theorem decodeMember_tailMembers (m1 : Member) :
    decodeMember tailMembers m1
      = some { m1 with DOB := "UNDEFINED", Gender := "UNDEFINED", BloodGrp := "UNDEFINED",
                       Weight := 0, Status := 0, Dead := false } := rfl

/-- Whatever the caller name and the identifier, a record that `create_member` decodes
from its JSON text has the sentinel details, stage Carrying and the dead flag false. -/
theorem created_record (caller id : String) (m : Member)
    (h : unmarshalMember (member_json caller id) Member.zero = some m) :
    m.DOB = "UNDEFINED" ∧ m.Gender = "UNDEFINED" ∧ m.BloodGrp = "UNDEFINED" ∧ m.Weight = 0 ∧
      m.Status = STATE_CARRYING ∧ m.Dead = false := by
  unfold unmarshalMember parseJSON at h
  have hd : (member_json caller id).data
      = ("\x7b\"ILNSID\":\"".data ++ (id.data ++ ("\", \"Name\":\"".data ++ caller.data)))
          ++ member_json_tail.data := by
    rw [member_json_data]
    simp only [List.append_assoc]
  rw [hd, run_append] at h
  cases h0 : run ⟨.beginValue, []⟩
      ("\x7b\"ILNSID\":\"".data ++ (id.data ++ ("\", \"Name\":\"".data ++ caller.data))) with
  | none => rw [h0] at h; cases h
  | some S =>
    rw [h0, Option.some_bind] at h
    cases h1 : run S member_json_tail.data with
    | none => rw [h1] at h; cases h
    | some S1 =>
      rw [h1] at h
      obtain ⟨raw, ms, k, stk, _, hS1⟩ := run_tail_forces S S1 h1
      subst hS1
      dsimp only at h
      cases stk with
      | cons f rest => cases h
      | nil =>
        dsimp only [eof] at h
        rw [decodeMember_append] at h
        cases hp : decodeMember (ms ++ [(k, .str (unquote raw))]) Member.zero with
        | none => rw [hp] at h; cases h
        | some m1 =>
          rw [hp, Option.some_bind, decodeMember_tailMembers] at h
          cases h
          exact ⟨rfl, rfl, rfl, rfl, rfl, rfl⟩

/-! ## Reachable records -/

theorem commits_guarded (G : Prop) [Decidable G] (st : Ledger) (m1 : Member) (e : Err) :
    commits st (if G then (Outcome.done, save_changes st m1) else (Outcome.fail e, st))
      (if G then some m1 else none) := by
  by_cases hg : G
  · rw [if_pos hg, if_pos hg]; rfl
  · rw [if_neg hg, if_neg hg]; exact ⟨rfl, rfl⟩

/-- The dispatcher and `mutation` agree: an operation succeeds exactly when `mutation`
gives a record, it then saves that record, and it writes nothing otherwise. -/
theorem invokeLoaded_commits (st : Ledger) (m : Member) (c a function a0 : String) :
    commits st (invokeLoaded st m c a function a0) (mutation m c a function a0) := by
  unfold invokeLoaded mutation
  by_cases h0 : Contains function.data "update".data = false ∧ function ≠ "dead_member"
  · rw [if_pos h0, if_pos h0]
    by_cases h1 : function = "parents_to_birthday"
    · rw [if_pos h1, if_pos h1]
      exact commits_guarded _ st _ _
    rw [if_neg h1, if_neg h1]
    by_cases h2 : function = "birthday_to_healthy"
    · rw [if_pos h2, if_pos h2]
      unfold birthday_to_healthy
      by_cases hd : m.DOB = "UNDEFINED" ∨ m.Gender = "UNDEFINED" ∨ m.BloodGrp = "UNDEFINED" ∨
          m.Weight = 0
      · rw [if_pos hd, if_pos hd]
        exact ⟨rfl, rfl⟩
      · rw [if_neg hd, if_neg hd]
        exact commits_guarded _ st _ _
    rw [if_neg h2, if_neg h2]
    by_cases h3 : function = "healthy_to_illness"
    · rw [if_pos h3, if_pos h3]
      exact commits_guarded _ st _ _
    rw [if_neg h3, if_neg h3]
    by_cases h4 : function = "illness_to_illness"
    · rw [if_pos h4, if_pos h4]
      exact commits_guarded _ st _ _
    rw [if_neg h4, if_neg h4]
    by_cases h5 : function = "illness_to_healthy"
    · rw [if_pos h5, if_pos h5]
      exact commits_guarded _ st _ _
    rw [if_neg h5, if_neg h5]
    by_cases h6 : function = "healthy_to_death"
    · rw [if_pos h6, if_pos h6]
      exact commits_guarded _ st _ _
    rw [if_neg h6, if_neg h6]
    by_cases h7 : function = "illness_to_death"
    · rw [if_pos h7, if_pos h7]
      exact commits_guarded _ st _ _
    rw [if_neg h7, if_neg h7]
    exact ⟨rfl, rfl⟩
  · rw [if_neg h0, if_neg h0]
    by_cases h1 : function = "update_DOB"
    · rw [if_pos h1, if_pos h1]
      exact commits_guarded _ st _ _
    rw [if_neg h1, if_neg h1]
    by_cases h2 : function = "update_gender"
    · rw [if_pos h2, if_pos h2]
      exact commits_guarded _ st _ _
    rw [if_neg h2, if_neg h2]
    by_cases h3 : function = "update_BloodGrp"
    · rw [if_pos h3, if_pos h3]
      exact commits_guarded _ st _ _
    rw [if_neg h3, if_neg h3]
    by_cases h4 : function = "update_Weight"
    · rw [if_pos h4, if_pos h4]
      unfold update_Weight
      cases ParseInt a0.data with
      | none => exact ⟨rfl, rfl⟩
      | some w =>
        dsimp only
        by_cases hl : len a0.data ≠ 15
        · rw [if_pos hl, if_pos hl]
          exact ⟨rfl, rfl⟩
        · rw [if_neg hl, if_neg hl]
          exact commits_guarded _ st _ _
    rw [if_neg h4, if_neg h4]
    by_cases h5 : function = "dead_member"
    · rw [if_pos h5, if_pos h5]
      exact commits_guarded _ st _ _
    rw [if_neg h5, if_neg h5]
    exact ⟨rfl, rfl⟩

theorem guarded_fails (G : Prop) [Decidable G] (hg : ¬ G) (st st1 : Ledger) (e : Err) :
    ((if G then (Outcome.done, st1) else (Outcome.fail e, st)) : Outcome × Ledger).1.succeeded
      = false := by
  rw [if_neg hg]; rfl

theorem guard_some (G : Prop) [Decidable G] (x m1 : Member)
    (h : (if G then some x else none) = some m1) : G ∧ x = m1 := by
  by_cases hg : G
  · rw [if_pos hg] at h; exact ⟨hg, Option.some.inj h⟩
  · rw [if_neg hg] at h; cases h

/-- An operation of the dispatcher that saves a record, applied to a record in stage
Carrying that is not dead, saves a record in stage Carrying that is not dead. -/
theorem mutation_stays_carrying (m m1 : Member) (c a function a0 : String)
    (hS : m.Status = STATE_CARRYING) (hD : m.Dead = false)
    (h : mutation m c a function a0 = some m1) :
    m1.Status = STATE_CARRYING ∧ m1.Dead = false := by
  have h01 : STATE_CARRYING ≠ STATE_BIRTH := by decide
  have h02 : STATE_CARRYING ≠ STATE_HEALTHY := by decide
  have h03 : STATE_CARRYING ≠ STATE_ILLNESS := by decide
  have h04 : STATE_CARRYING ≠ STATE_DEATH := by decide
  unfold mutation at h
  by_cases h0 : Contains function.data "update".data = false ∧ function ≠ "dead_member"
  · rw [if_pos h0] at h
    by_cases h1 : function = "parents_to_birthday"
    · rw [if_pos h1] at h
      obtain ⟨_, rfl⟩ := guard_some _ _ _ h
      exact ⟨rfl, hD⟩
    rw [if_neg h1] at h
    by_cases h2 : function = "birthday_to_healthy"
    · rw [if_pos h2] at h
      by_cases hd : m.DOB = "UNDEFINED" ∨ m.Gender = "UNDEFINED" ∨ m.BloodGrp = "UNDEFINED" ∨
          m.Weight = 0
      · rw [if_pos hd] at h; cases h
      · rw [if_neg hd] at h
        exact absurd (hS.symm.trans (guard_some _ _ _ h).1.1) h01
    rw [if_neg h2] at h
    by_cases h3 : function = "healthy_to_illness"
    · rw [if_pos h3] at h
      exact absurd (hS.symm.trans (guard_some _ _ _ h).1.1) h02
    rw [if_neg h3] at h
    by_cases h4 : function = "illness_to_illness"
    · rw [if_pos h4] at h
      exact absurd (hS.symm.trans (guard_some _ _ _ h).1.1) h03
    rw [if_neg h4] at h
    by_cases h5 : function = "illness_to_healthy"
    · rw [if_pos h5] at h
      exact absurd (hS.symm.trans (guard_some _ _ _ h).1.1) h03
    rw [if_neg h5] at h
    by_cases h6 : function = "healthy_to_death"
    · rw [if_pos h6] at h
      exact absurd (hS.symm.trans (guard_some _ _ _ h).1.1) h02
    rw [if_neg h6] at h
    by_cases h7 : function = "illness_to_death"
    · rw [if_pos h7] at h
      exact absurd (hS.symm.trans (guard_some _ _ _ h).1.1) h03
    rw [if_neg h7] at h
    cases h
  · rw [if_neg h0] at h
    by_cases h1 : function = "update_DOB"
    · rw [if_pos h1] at h
      obtain ⟨_, rfl⟩ := guard_some _ _ _ h
      exact ⟨hS, hD⟩
    rw [if_neg h1] at h
    by_cases h2 : function = "update_gender"
    · rw [if_pos h2] at h
      obtain ⟨_, rfl⟩ := guard_some _ _ _ h
      exact ⟨hS, hD⟩
    rw [if_neg h2] at h
    by_cases h3 : function = "update_BloodGrp"
    · rw [if_pos h3] at h
      obtain ⟨_, rfl⟩ := guard_some _ _ _ h
      exact ⟨hS, hD⟩
    rw [if_neg h3] at h
    by_cases h4 : function = "update_Weight"
    · rw [if_pos h4] at h
      revert h
      cases ParseInt a0.data with
      | none => intro h; cases h
      | some w =>
        intro h
        dsimp only at h
        by_cases hl : len a0.data ≠ 15
        · rw [if_pos hl] at h; cases h
        · rw [if_neg hl] at h
          obtain ⟨_, rfl⟩ := guard_some _ _ _ h
          exact ⟨hS, hD⟩
    rw [if_neg h4] at h
    by_cases h5 : function = "dead_member"
    · rw [if_pos h5] at h
      exact absurd (hS.symm.trans (guard_some _ _ _ h).1.1) h04
    rw [if_neg h5] at h
    cases h

theorem invoked_stays_carrying (m : Member) (i : Invocation)
    (hS : m.Status = STATE_CARRYING) (hD : m.Dead = false) :
    (invoked m i).Status = STATE_CARRYING ∧ (invoked m i).Dead = false := by
  unfold invoked
  cases hm : mutation m i.caller i.affiliation i.function i.arg with
  | none => exact ⟨hS, hD⟩
  | some m1 => exact mutation_stays_carrying m m1 _ _ _ _ hS hD hm

theorem afterInvocations_stays_carrying (is : List Invocation) (m : Member)
    (hS : m.Status = STATE_CARRYING) (hD : m.Dead = false) :
    (afterInvocations m is).Status = STATE_CARRYING ∧ (afterInvocations m is).Dead = false := by
  induction is generalizing m with
  | nil => exact ⟨hS, hD⟩
  | cons i is ih =>
    have h1 := invoked_stays_carrying m i hS hD
    exact ih (invoked m i) h1.1 h1.2

/-- C26: a record decoded by `create_member` from its JSON text, for any caller name and
identifier, is after any finite sequence of invocations of the dispatcher (any callers,
affiliations, function names and arguments) still in stage Carrying and not dead; each
invocation is what the dispatcher does on the record (it saves the record `mutation`
gives, or fails and writes nothing), and `birthday_to_healthy`, `healthy_to_death`,
`illness_to_death` and `dead_member` do not succeed on the record, whatever the ledger,
the caller and the arguments. -/
theorem reachable_stays_carrying (caller id : String) (m : Member)
    (h : unmarshalMember (member_json caller id) Member.zero = some m)
    (is : List Invocation) :
    (afterInvocations m is).Status = STATE_CARRYING ∧ (afterInvocations m is).Dead = false ∧
    (∀ (st : Ledger) (i : Invocation),
      commits st (invokeLoaded st (afterInvocations m is) i.caller i.affiliation i.function i.arg)
        (mutation (afterInvocations m is) i.caller i.affiliation i.function i.arg)) ∧
    (∀ (st : Ledger) (c a rn ra : String),
      (birthday_to_healthy st (afterInvocations m is) c a rn ra).1.succeeded = false ∧
      (healthy_to_death st (afterInvocations m is) c a rn ra).1.succeeded = false ∧
      (illness_to_death st (afterInvocations m is) c a rn ra).1.succeeded = false ∧
      (dead_member st (afterInvocations m is) c a).1.succeeded = false) := by
  have hc := created_record caller id m h
  have hr := afterInvocations_stays_carrying is m hc.2.2.2.2.1 hc.2.2.2.2.2
  generalize afterInvocations m is = r at hr
  obtain ⟨hS, hD⟩ := hr
  refine ⟨hS, hD, fun st i => invokeLoaded_commits st r _ _ _ _, fun st c a rn ra => ⟨?_, ?_, ?_, ?_⟩⟩
  · unfold birthday_to_healthy
    split
    · rfl
    · exact guarded_fails _ (fun hg => absurd (hS.symm.trans hg.1) (by decide)) st _ _
  · unfold healthy_to_death
    exact guarded_fails _ (fun hg => absurd (hS.symm.trans hg.1) (by decide)) st _ _
  · unfold illness_to_death
    exact guarded_fails _ (fun hg => absurd (hS.symm.trans hg.1) (by decide)) st _ _
  · unfold dead_member
    exact guarded_fails _ (fun hg => absurd (hS.symm.trans hg.1) (by decide)) st _ _

/-- C26 at a concrete record: the record `create_member` decodes for alice under
AB1234567, after alice hands it to bob and bob tries to declare it dead. -/
theorem reachable_stays_carrying_witness :
    unmarshalMember (member_json "alice" "AB1234567") Member.zero = some (freshRecord "alice") ∧
    (afterInvocations (freshRecord "alice")
        [⟨"alice", "parents", "parents_to_birthday", "bob"⟩,
         ⟨"bob", "death", "dead_member", "AB1234567"⟩]).Name = "bob" ∧
    (afterInvocations (freshRecord "alice")
        [⟨"alice", "parents", "parents_to_birthday", "bob"⟩,
         ⟨"bob", "death", "dead_member", "AB1234567"⟩]).Status = STATE_CARRYING :=
  ⟨by decide, by decide,
    (reachable_stays_carrying "alice" "AB1234567" (freshRecord "alice") (by decide)
      [⟨"alice", "parents", "parents_to_birthday", "bob"⟩,
       ⟨"bob", "death", "dead_member", "AB1234567"⟩]).1⟩

end MedicalHistory
